import Mathlib

/-!
# Big Trip: entity store and item presenter

A shallow embedding of `src/model/points-model.js` (the entity store), of
`src/presenter/trip-point-presenter.js` (the item presenter state machine) and
of `src/presenter/new-point-presenter.js` (the creation presenter), followed
by the properties established about them.

JavaScript values are embedded with the types of the data model:

* identifiers and type names are strings, compared with `===`;
* a nullable reference is an `Option` (`none` stands for `null` / `undefined`);
* the `offers` field of a stored point is `some ids` when it is an array and
  `none` when it is anything else;
* a thrown `Error` is recorded by its message next to the state the call left
  behind, because a JavaScript `throw` does not roll back earlier assignments.
-/

namespace BigTrip

/-! ## Data model -/

/-- One add-on offer of a type catalog: `{id, title, price}`. -/
structure Offer where
  id : String
  title : String
  price : Int
deriving DecidableEq, Repr

/-- A picture reference of a destination. -/
structure Picture where
  src : String
  description : String
deriving DecidableEq, Repr

/-- A destination: `{id, name, description, pictures}`. -/
structure Destination where
  id : String
  name : String
  description : String
  pictures : List Picture
deriving DecidableEq, Repr

/-- The offer catalog entry of one point type: `{type, offers}`. -/
structure OfferCatalogEntry where
  type : String
  offers : List Offer
deriving DecidableEq, Repr

/-- A JavaScript `Date` object: its time value in milliseconds, `none` for an
invalid date. -/
structure JSDate where
  time : Option Int
deriving DecidableEq, Repr

/-- A record as the remote point source delivers it (provider field names).
`date_from` / `date_to` are an ISO-like string or `null`. -/
structure RawPoint where
  id : String
  type : String
  destination : Option String
  offers : Option (List String)
  base_price : Int
  date_from : Option String
  date_to : Option String
  is_favorite : Bool
deriving DecidableEq, Repr

/-- An element of the raw point list `#points` (canonical field names).
`destination` is a destination id or `null`; `offers` is `some ids` for an
array of offer ids and `none` for a value that is not an array; `typeOffers`
is `none` when the key is absent (records coming from a load) and `some _`
when the record was derived from a detailed one, whose key the object spread
carries over. -/
structure Point where
  id : String
  type : String
  dateFrom : Option JSDate
  dateTo : Option JSDate
  basePrice : Int
  isFavorite : Bool
  destination : Option String
  offers : Option (List String)
  typeOffers : Option (List Offer)
deriving DecidableEq, Repr

/-- A detailed point: the shape produced by the projection and handed to
`addPoint` / `updatePoint` / `deletePoint`. `destination` and `offers` are
`none` when `null` or absent. -/
structure PointWithDetails where
  id : String
  type : String
  dateFrom : Option JSDate
  dateTo : Option JSDate
  basePrice : Int
  isFavorite : Bool
  destination : Option Destination
  typeOffers : List Offer
  offers : Option (List Offer)
deriving DecidableEq, Repr

/-! ## Built-ins used by the store -/

/-- `Array.prototype.findIndex`: the index of the first element satisfying
`p`; `none` stands for the result `-1`. -/
def findIndex {α : Type} (p : α → Bool) : List α → Option Nat
  | [] => none
  | x :: xs => if p x then some 0 else (findIndex p xs).map (· + 1)

/-- `Array.prototype.slice(start, end)` for indices within `0 ≤ start`. -/
def slice {α : Type} (xs : List α) (start stop : Nat) : List α :=
  (xs.take stop).drop start

/-- `Array.prototype.slice(start)`: the elements from `start` to the end. -/
def sliceFrom {α : Type} (xs : List α) (start : Nat) : List α :=
  xs.drop start

/-- JavaScript truthiness of a string: only the empty string is falsy. -/
def truthy (s : String) : Bool :=
  !(s == "")

/-! ## Notification bus -/

/-- One publication on the notification bus: the update kind and the payload
(`none` when `_notify` is called with the kind only). -/
structure Notification where
  updateType : String
  payload : Option PointWithDetails
deriving DecidableEq, Repr

/-! ## Entity store (`PointsModel`) -/

/-- The private state of `PointsModel`. `storedPointsWithDetails` is the
private field `#pointsWithDetails` (the getter of the same name is
`PointsModel.pointsWithDetails` below); `notified` records the calls of the
inherited `_notify`, oldest first. -/
structure PointsModel where
  points : List Point
  storedPointsWithDetails : List PointWithDetails
  destinations : List Destination
  offers : List OfferCatalogEntry
  notified : List Notification
deriving DecidableEq, Repr

/-- What a call of a store method leaves behind: the message of the thrown
`Error` (`none` for a normal return) and the state after the call. -/
structure CallResult where
  error : Option String
  model : PointsModel
deriving DecidableEq, Repr

/-- What awaiting `pointsApiService.points` settles to: a rejection, a value
that is not an array, or an array whose elements are records or `null`. -/
inductive ApiOutcome where
  | rejected (err : String)
  | notArray
  | array (items : List (Option RawPoint))
deriving DecidableEq, Repr

namespace PointsModel

/-- The constructor: all four collections start empty. -/
def new : PointsModel :=
  { points := [], storedPointsWithDetails := [], destinations := [], offers := [],
    notified := [] }

/-- Modelled from the spec: `Observable._notify` (`framework/observable.js` is
not among the sources). A publication is delivered synchronously; the model
records it. -/
def _notify (self : PointsModel) (updateType : String)
    (payload : Option PointWithDetails) : PointsModel :=
  { self with notified := self.notified ++ [⟨updateType, payload⟩] }

/-- The arrow function that the getter `pointsWithDetails` maps over
`#points`: the point joined with its destination and its offers. -/
def withDetails (self : PointsModel) (point : Point) : PointWithDetails :=
  let destination := self.destinations.find? fun dest => decide (some dest.id = point.destination)
  let offersForType :=
    match self.offers.find? fun offer => decide (offer.type = point.type) with
    | some entry => entry.offers
    | none => []
  let pointOffers :=
    match point.offers with
    | some ids => offersForType.filter fun offer => ids.contains offer.id
    | none => []
  { id := point.id
    type := point.type
    dateFrom := point.dateFrom
    dateTo := point.dateTo
    basePrice := point.basePrice
    isFavorite := point.isFavorite
    destination := destination
    typeOffers := offersForType
    offers := some pointOffers }

/-- The getter `pointsWithDetails`: the projection, recomputed from `#points`,
`#destinations` and `#offers` on every access. -/
def pointsWithDetails (self : PointsModel) : List PointWithDetails :=
  self.points.map self.withDetails

/-- The private method `#adaptToClient`; `newDate` is the built-in
`new Date(string)`. The four provider keys are replaced by their canonical
counterparts, every other key is carried over by the spread. -/
def adaptToClient (newDate : String → JSDate) (point : RawPoint) : Point :=
  { id := point.id
    type := point.type
    destination := point.destination
    offers := point.offers
    typeOffers := none
    basePrice := point.base_price
    dateFrom := match point.date_from with
      | some s => some (newDate s)
      | none => none
    dateTo := match point.date_to with
      | some s => some (newDate s)
      | none => none
    isFavorite := point.is_favorite }

/-- The normalisation `points.map(this.#adaptToClient)` inside `init`: `none`
when it throws (reading a property of a `null` element), the adapted list
otherwise. -/
def adaptAll (newDate : String → JSDate) : List (Option RawPoint) → Option (List Point)
  | [] => some []
  | none :: _ => none
  | some r :: rest =>
    match adaptAll newDate rest with
    | some ps => some (adaptToClient newDate r :: ps)
    | none => none

/-- The method `init`, run to completion on the settled outcome of the remote
source. Every failure inside the `try` block is caught and empties `#points`;
no other field is assigned. -/
def init (newDate : String → JSDate) (outcome : ApiOutcome) (self : PointsModel) : CallResult :=
  match outcome with
  | .array items =>
    match adaptAll newDate items with
    | some ps => { error := none, model := { self with points := ps } }
    | none => { error := none, model := { self with points := [] } }
  | .notArray => { error := none, model := { self with points := [] } }
  | .rejected _ => { error := none, model := { self with points := [] } }

/-- The method `_extractBasePointData`: `destination` becomes
`point.destination?.id || null` and `offers` becomes
`point.offers?.map((offer) => offer.id) || null`. -/
def _extractBasePointData (point : PointWithDetails) : Point :=
  { id := point.id
    type := point.type
    dateFrom := point.dateFrom
    dateTo := point.dateTo
    basePrice := point.basePrice
    isFavorite := point.isFavorite
    typeOffers := some point.typeOffers
    destination :=
      match point.destination with
      | some dest => if truthy dest.id then some dest.id else none
      | none => none
    offers :=
      match point.offers with
      | some os => some (os.map fun offer => offer.id)
      | none => none }

/-- The method `updatePoint`. -/
def updatePoint (updateType : String) (update : PointWithDetails) (self : PointsModel) :
    CallResult :=
  match findIndex (fun point => decide (point.id = update.id)) self.storedPointsWithDetails with
  | none => { error := some "Can't update non-existing point", model := self }
  | some index =>
    let s1 := { self with
      storedPointsWithDetails :=
        slice self.storedPointsWithDetails 0 index ++ update ::
          sliceFrom self.storedPointsWithDetails (index + 1) }
    let baseUpdate := _extractBasePointData update
    let s2 := { s1 with
      points := slice s1.points 0 index ++ baseUpdate :: sliceFrom s1.points (index + 1) }
    { error := none, model := s2._notify updateType (some update) }

/-- The method `addPoint`. -/
def addPoint (updateType : String) (update : PointWithDetails) (self : PointsModel) :
    CallResult :=
  let s1 := { self with storedPointsWithDetails := update :: self.storedPointsWithDetails }
  let baseUpdate := _extractBasePointData update
  let s2 := { s1 with points := baseUpdate :: s1.points }
  { error := none, model := s2._notify updateType (some update) }

/-- The method `deletePoint`. -/
def deletePoint (updateType : String) (update : PointWithDetails) (self : PointsModel) :
    CallResult :=
  match findIndex (fun point => decide (point.id = update.id)) self.storedPointsWithDetails with
  | none => { error := some "Can't delete non-existing point", model := self }
  | some index =>
    let s1 := { self with
      storedPointsWithDetails :=
        slice self.storedPointsWithDetails 0 index ++
          sliceFrom self.storedPointsWithDetails (index + 1) }
    let s2 := { s1 with
      points := slice s1.points 0 index ++ sliceFrom s1.points (index + 1) }
    { error := none, model := s2._notify updateType none }

end PointsModel

/-! ## Item presenter (`TripPointPresenter`) -/

/-- The two modes of `trip-point-presenter.js`. -/
inductive Mode where
  | DEFAULT
  | EDITING
deriving DecidableEq, Repr

/-- Which of the presenter's two components is meant. -/
inductive ViewKind where
  | point
  | editor
deriving DecidableEq, Repr

/-- Modelled from the spec: the read view `TripPointView`
(`view/trip-point-view.js` is not among the sources); it shows the point it
was constructed with. -/
structure TripPointView where
  point : PointWithDetails
  offers : Option (List Offer)
deriving DecidableEq, Repr

/-- Modelled from the spec: the edit view `EventEditorView`
(`view/event-editor-view.js` is not among the sources). `state` is the form
content, which unsaved edits change and `reset` discards. -/
structure EventEditorView where
  point : PointWithDetails
  destination : Option Destination
  offers : Option (List Offer)
  isEventExist : Bool
  state : PointWithDetails
deriving DecidableEq, Repr

namespace EventEditorView

/-- Modelled from the spec: the constructor of the edit view; the form starts
from the given point. -/
def create (point : PointWithDetails) (destination : Option Destination)
    (offers : Option (List Offer)) (isEventExist : Bool) : EventEditorView :=
  { point := point, destination := destination, offers := offers,
    isEventExist := isEventExist, state := point }

/-- Modelled from the spec: `reset(point, destination, offers, isEventExist)`
discards the pending edit and shows the given point again. -/
def reset (_self : EventEditorView) (point : PointWithDetails)
    (destination : Option Destination) (offers : Option (List Offer))
    (isEventExist : Bool) : EventEditorView :=
  { point := point, destination := destination, offers := offers,
    isEventExist := isEventExist, state := point }

/-- Modelled from the spec: an unsaved edit made in the form. -/
def edit (self : EventEditorView) (draft : PointWithDetails) : EventEditorView :=
  { self with state := draft }

end EventEditorView

/-- The private state of one `TripPointPresenter`, together with what its
collaborators observe of it: `itemRendered` and `mounted` are the DOM side of
`#tripPointItem` (is the list item attached, and which component it holds),
`dataChanges` records the arguments of the `#handleDataChange` calls, oldest
first. -/
structure TripPointPresenter where
  point : Option PointWithDetails
  pointComponent : Option TripPointView
  editorComponent : Option EventEditorView
  mode : Mode
  itemRendered : Bool
  mounted : Option ViewKind
  dataChanges : List PointWithDetails
deriving DecidableEq, Repr

namespace TripPointPresenter

/-- The constructor together with the field initialisers. -/
def new : TripPointPresenter :=
  { point := none, pointComponent := none, editorComponent := none, mode := .DEFAULT,
    itemRendered := false, mounted := none, dataChanges := [] }

/-- Modelled from the spec: `replace(newComponent, oldComponent)` of
`framework/render.js`, replace-in-place of one mounted instance by another. -/
def replace (newKind oldKind : ViewKind) (self : TripPointPresenter) : TripPointPresenter :=
  if self.mounted = some oldKind then { self with mounted := some newKind } else self

/-- Modelled from the spec: `remove(component)` of `framework/render.js`,
unmount of one component. -/
def remove (kind : ViewKind) (self : TripPointPresenter) : TripPointPresenter :=
  if self.mounted = some kind then { self with mounted := none } else self

/-- The method `init(point)`. The first call renders the list item and the
read view; a later call swaps the component of the current mode for its new
version and removes the previous two. -/
def init (point : PointWithDetails) (self : TripPointPresenter) : TripPointPresenter :=
  let prevPointComponent := self.pointComponent
  let prevEditorComponent := self.editorComponent
  let s1 := { self with
    point := some point
    pointComponent := some { point := point, offers := point.offers }
    editorComponent := some (EventEditorView.create point point.destination point.offers true) }
  if prevPointComponent = none ∨ prevEditorComponent = none then
    { s1 with itemRendered := true, mounted := some .point }
  else
    match s1.mode with
    | .DEFAULT =>
      -- replace(new point view, previous point view); the previous editor,
      -- if it was the mounted one, is removed
      if s1.mounted = some .point then s1 else { s1 with mounted := none }
    | .EDITING =>
      if s1.mounted = some .editor then s1 else { s1 with mounted := none }

/-- The method `destroy()`: the three components are removed from the page;
no other field is assigned. -/
def destroy (self : TripPointPresenter) : TripPointPresenter :=
  { (remove .editor (remove .point self)) with itemRendered := false }

/-- The private method `#replaceEditorToPoint`. -/
def replaceEditorToPoint (self : TripPointPresenter) : TripPointPresenter :=
  { (replace .point .editor self) with mode := .DEFAULT }

/-- The statement
`this.#editorComponent.reset(this.#point, this.#point.destination, this.#point.offers, true)`;
reading a property of `null` throws a `TypeError`. -/
def resetEditor (self : TripPointPresenter) : Except String TripPointPresenter :=
  match self.editorComponent, self.point with
  | some editor, some point =>
    .ok { self with
      editorComponent := some (editor.reset point point.destination point.offers true) }
  | _, _ => .error "TypeError: Cannot read properties of null"

/-- The method `resetView()`. Nothing is done to the document here. -/
def resetView (self : TripPointPresenter) : Except String TripPointPresenter :=
  if self.mode ≠ .DEFAULT then
    (resetEditor self).map replaceEditorToPoint
  else
    .ok self

/-- The private method `#handleFavoriteClick`. -/
def handleFavoriteClick (self : TripPointPresenter) : Except String TripPointPresenter :=
  match self.point with
  | some point =>
    .ok { self with
      dataChanges := self.dataChanges ++ [{ point with isFavorite := !point.isFavorite }] }
  | none => .error "TypeError: Cannot read properties of null"

end TripPointPresenter

/-! ## The page: presenters and the document -/

/-- The presenters of the page and the `keydown` listener list of `document`.
A presenter is addressed by its position; the listener list holds the
positions of the presenters whose `#escKeyDownHandler` is registered. -/
structure Board where
  presenters : List TripPointPresenter
  keydownListeners : List Nat
deriving DecidableEq, Repr

namespace Board

/-- The DOM method `document.addEventListener('keydown', handler)`: a handler
that is already in the list is not added again. -/
def addEventListener (handler : Nat) (self : Board) : Board :=
  if handler ∈ self.keydownListeners then self
  else { self with keydownListeners := self.keydownListeners ++ [handler] }

/-- The DOM method `document.removeEventListener('keydown', handler)`. -/
def removeEventListener (handler : Nat) (self : Board) : Board :=
  { self with keydownListeners := self.keydownListeners.erase handler }

/-- Runs a step on presenter `i`. -/
def onPresenter (i : Nat) (f : TripPointPresenter → Except String TripPointPresenter)
    (self : Board) : Except String Board :=
  match self.presenters[i]? with
  | none => .error "no such presenter"
  | some p =>
    match f p with
    | .ok q => .ok { self with presenters := self.presenters.set i q }
    | .error e => .error e

/-- The method `resetView()` of presenter `i`. -/
def resetView (i : Nat) (self : Board) : Except String Board :=
  self.onPresenter i TripPointPresenter.resetView

/-- The method `destroy()` of presenter `i`. -/
def destroy (i : Nat) (self : Board) : Except String Board :=
  self.onPresenter i fun p => .ok p.destroy

/-- The method `init(point)` of presenter `i`. -/
def init (i : Nat) (point : PointWithDetails) (self : Board) : Except String Board :=
  self.onPresenter i fun p => .ok (p.init point)

/-- Calls `resetView()` on the presenters at the positions `js`, in order,
skipping position `i`. -/
def resetOthers (i : Nat) : List Nat → Board → Except String Board
  | [], b => .ok b
  | j :: js, b =>
    if j = i then resetOthers i js b
    else
      match b.resetView j with
      | .ok b1 => resetOthers i js b1
      | .error e => .error e

/-- Modelled from the spec: the `onModeChange` callback of presenter `i`, which
calls `resetView()` on every other presenter (the board presenter among the
sources does not create item presenters). -/
def handleModeChange (i : Nat) (self : Board) : Except String Board :=
  resetOthers i (List.range self.presenters.length) self

/-- The private method `#replacePointToEditor` of presenter `i`: the editor
takes the place of the read view, the mode-change callback runs, and only
then the mode becomes `EDITING`. -/
def replacePointToEditor (i : Nat) (self : Board) : Except String Board := do
  let b1 ← self.onPresenter i fun p => .ok (p.replace .editor .point)
  let b2 ← b1.handleModeChange i
  b2.onPresenter i fun p => .ok { p with mode := .EDITING }

/-- The callback `onEditButtonClick` that `init` hands to the read view of
presenter `i`; it exists once `init` has created that view. -/
def onEditButtonClick (i : Nat) (self : Board) : Except String Board := do
  let b0 ← self.onPresenter i fun p =>
    if p.pointComponent = none then .error "no read view" else .ok p
  let b1 ← b0.replacePointToEditor i
  pure (b1.addEventListener i)

/-- The private method `#escKeyDownHandler` of presenter `i`, called with the
`key` of a `keydown` event. -/
def escKeyDownHandler (i : Nat) (key : String) (self : Board) : Except String Board :=
  if key = "Escape" then do
    let b1 ← self.onPresenter i TripPointPresenter.resetEditor
    let b2 ← b1.onPresenter i fun p => .ok p.replaceEditorToPoint
    pure (b2.removeEventListener i)
  else
    .ok self

/-- The private method `#handlerEditorSubmit` of presenter `i`. -/
def handlerEditorSubmit (i : Nat) (point : PointWithDetails) (self : Board) :
    Except String Board := do
  let b1 ← self.onPresenter i fun p => .ok { p with dataChanges := p.dataChanges ++ [point] }
  let b2 ← b1.onPresenter i fun p => .ok p.replaceEditorToPoint
  pure (b2.removeEventListener i)

/-- The private method `#handlerCloseButtonClick` of presenter `i`. -/
def handlerCloseButtonClick (i : Nat) (self : Board) : Except String Board := do
  let b1 ← self.onPresenter i TripPointPresenter.resetEditor
  let b2 ← b1.onPresenter i fun p => .ok p.replaceEditorToPoint
  pure (b2.removeEventListener i)

/-- The private method `#handleFavoriteClick` of presenter `i`. -/
def handleFavoriteClick (i : Nat) (self : Board) : Except String Board :=
  self.onPresenter i TripPointPresenter.handleFavoriteClick

/-- A page with one freshly constructed and initialised presenter per point
and no `keydown` listener. -/
def create (points : List PointWithDetails) : Board :=
  { presenters := points.map fun point => TripPointPresenter.new.init point
    keydownListeners := [] }

/-- The modes of the presenters, by position. -/
def modes (self : Board) : List Mode :=
  self.presenters.map fun p => p.mode

/-- A run of edit intents: `onEditButtonClick` on each position in turn. -/
def editIntents : List Nat → Board → Except String Board
  | [], b => .ok b
  | i :: is, b =>
    match b.onEditButtonClick i with
    | .ok b1 => editIntents is b1
    | .error e => .error e

end Board

/-- An event of one item presenter. -/
inductive PresenterEvent where
  | editClick
  | submit (point : PointWithDetails)
  | closeClick
  | keydown (key : String)
  | resetView
  | destroy
deriving DecidableEq, Repr

namespace Board

/-- One event of presenter `i`. A `keydown` reaches `#escKeyDownHandler` only
while the handler is registered on the document. -/
def step (i : Nat) (ev : PresenterEvent) (self : Board) : Except String Board :=
  match ev with
  | .editClick => self.onEditButtonClick i
  | .submit point => self.handlerEditorSubmit i point
  | .closeClick => self.handlerCloseButtonClick i
  | .keydown key =>
    if i ∈ self.keydownListeners then self.escKeyDownHandler i key else .ok self
  | .resetView => self.resetView i
  | .destroy => self.destroy i

/-- A run of events of presenter `i`. -/
def run (i : Nat) : List PresenterEvent → Board → Except String Board
  | [], b => .ok b
  | ev :: evs, b =>
    match b.step i ev with
    | .ok b1 => run i evs b1
    | .error e => .error e

end Board

/-! ## Unsaved edits in the item editor -/

namespace Board

/-- Modelled from the spec: the user changes the form of presenter `i` without
submitting; the form of the edit view then shows `draft`. -/
def typeDraft (i : Nat) (draft : PointWithDetails) (self : Board) : Except String Board :=
  self.onPresenter i fun p =>
    match p.editorComponent with
    | some editor => .ok { p with editorComponent := some (editor.edit draft) }
    | none => .error "no edit view"

/-- A run of unsaved edits in the form of presenter `i`. -/
def typeDrafts (i : Nat) : List PointWithDetails → Board → Except String Board
  | [], b => .ok b
  | draft :: drafts, b =>
    match b.typeDraft i draft with
    | .ok b1 => typeDrafts i drafts b1
    | .error e => .error e

end Board

/-! ## Call sequences on the entity store -/

/-- A call of one of the three mutation methods of the store. -/
inductive Mutation where
  | addPoint (updateType : String) (update : PointWithDetails)
  | updatePoint (updateType : String) (update : PointWithDetails)
  | deletePoint (updateType : String) (update : PointWithDetails)
deriving DecidableEq, Repr

/-- A call of a public method of the store: `init` with the outcome of the
remote source, or a mutation. -/
inductive StoreOp where
  | init (outcome : ApiOutcome)
  | mutate (m : Mutation)
deriving DecidableEq, Repr

namespace PointsModel

/-- Runs one mutation call. -/
def applyMutation (m : Mutation) (self : PointsModel) : CallResult :=
  match m with
  | .addPoint updateType update => self.addPoint updateType update
  | .updatePoint updateType update => self.updatePoint updateType update
  | .deletePoint updateType update => self.deletePoint updateType update

/-- The state after a sequence of mutation calls; a call that throws leaves
its state behind like any other and the next call goes on from it. -/
def runMutations : List Mutation → PointsModel → PointsModel
  | [], s => s
  | m :: ms, s => runMutations ms (applyMutation m s).model

/-- Runs one call of a public method. -/
def applyOp (newDate : String → JSDate) (op : StoreOp) (self : PointsModel) : CallResult :=
  match op with
  | .init outcome => self.init newDate outcome
  | .mutate m => self.applyMutation m

/-- The state after a sequence of calls of public methods. -/
def runOps (newDate : String → JSDate) : List StoreOp → PointsModel → PointsModel
  | [], s => s
  | op :: ops, s => runOps newDate ops (applyOp newDate op s).model

end PointsModel

/-! ## Creation presenter (`NewPointPresenter`) -/

/-- Modelled from the spec: the member names of `UserAction` in `const.js`,
which is not among the sources; the source uses `UserAction.ADD_POINT`. -/
inductive UserAction where
  | UPDATE_POINT
  | ADD_POINT
  | DELETE_POINT
deriving DecidableEq, Repr

/-- Modelled from the spec: the member names of `UpdateType` in `const.js`,
which is not among the sources; the source uses `UpdateType.MINOR`. -/
inductive UpdateType where
  | PATCH
  | MINOR
  | MAJOR
deriving DecidableEq, Repr

/-- The object that the edit view hands to `onEditorSubmit`: the content of
the form. `id` is `none` when the object has no `id` key (a point that was
never stored) and `some _` when it has one. -/
structure FormPayload where
  id : Option String
  type : String
  dateFrom : Option JSDate
  dateTo : Option JSDate
  basePrice : Int
  isFavorite : Bool
  destination : Option Destination
  typeOffers : List Offer
  offers : Option (List Offer)
deriving DecidableEq, Repr

/-- One call of the `onDataChange` callback of the creation presenter: the
three arguments. -/
structure ViewAction where
  actionType : UserAction
  updateType : UpdateType
  update : PointWithDetails
deriving DecidableEq, Repr

/-- Modelled from the spec: the edit view of the creation flow, an
`EventEditorView` constructed without a point, with `isEventExist: false` and
the destinations. -/
structure NewPointEditorView where
  isEventExist : Bool
  destinations : Option (List Destination)
deriving DecidableEq, Repr

/-- The private state of `NewPointPresenter` (`destinations`,
`pointEditComponent`, and `escHandlerId`, the identity of the bound
`#escKeyDownHandler`), together with what its collaborators observe of it: `itemRendered`
tells whether `#tripPointItem` is attached to the list container,
`mountedEditors` lists the edit views shown inside it (newest first),
`keydownListeners` is the `keydown` listener list of `document`, `dataChanges`
records the calls of `#handleDataChange` (oldest first) and `destroyCalls`
counts the calls of `#handleDestroy`. -/
structure NewPointPresenter where
  destinations : Option (List Destination)
  pointEditComponent : Option NewPointEditorView
  escHandlerId : Nat
  itemRendered : Bool
  mountedEditors : List NewPointEditorView
  keydownListeners : List Nat
  dataChanges : List ViewAction
  destroyCalls : Nat
deriving DecidableEq, Repr

namespace NewPointPresenter

/-- The constructor together with the field initialisers, on a page whose
document has the `keydown` listeners `listeners`. -/
def new (handler : Nat) (listeners : List Nat) : NewPointPresenter :=
  { destinations := none, pointEditComponent := none, escHandlerId := handler,
    itemRendered := false, mountedEditors := [], keydownListeners := listeners,
    dataChanges := [], destroyCalls := 0 }

/-- The DOM method `document.addEventListener('keydown', this.#escKeyDownHandler)`:
a handler that is already in the list is not added again. -/
def addEventListener (self : NewPointPresenter) : NewPointPresenter :=
  if self.escHandlerId ∈ self.keydownListeners then self
  else { self with keydownListeners := self.keydownListeners ++ [self.escHandlerId] }

/-- The DOM method
`document.removeEventListener('keydown', this.#escKeyDownHandler)`. -/
def removeEventListener (self : NewPointPresenter) : NewPointPresenter :=
  { self with keydownListeners := self.keydownListeners.erase self.escHandlerId }

/-- The method `init(destinations)`: the argument is stored first, then the
guard returns when an edit component exists; otherwise the edit view is
created, the list item and the view are rendered and the listener is
registered. -/
def init (destinations : Option (List Destination)) (self : NewPointPresenter) :
    NewPointPresenter :=
  let s1 := { self with destinations := destinations }
  if s1.pointEditComponent ≠ none then
    s1
  else
    let view : NewPointEditorView := { isEventExist := false, destinations := s1.destinations }
    let s2 := { s1 with pointEditComponent := some view }
    let s3 := { s2 with itemRendered := true }
    let s4 := { s3 with mountedEditors := view :: s3.mountedEditors }
    s4.addEventListener

/-- The method `destroy()`. Removing the list item takes the views inside it
off the page. -/
def destroy (self : NewPointPresenter) : NewPointPresenter :=
  if self.pointEditComponent = none then
    self
  else
    let s1 := { self with destroyCalls := self.destroyCalls + 1 }
    let s2 := { s1 with itemRendered := false, mountedEditors := [] }
    let s3 := { s2 with pointEditComponent := none }
    s3.removeEventListener

/-- The object literal `{id: nanoid(), ...point}`: the keys of the payload are
spread after `id`, so an `id` key of the payload replaces the generated one. -/
def withGeneratedId (generated : String) (point : FormPayload) : PointWithDetails :=
  { id := match point.id with
      | some own => own
      | none => generated
    type := point.type
    dateFrom := point.dateFrom
    dateTo := point.dateTo
    basePrice := point.basePrice
    isFavorite := point.isFavorite
    destination := point.destination
    typeOffers := point.typeOffers
    offers := point.offers }

/-- The private method `#handleFormSubmit`; `generated` is the value that the
call `nanoid()` returns. -/
def handleFormSubmit (generated : String) (point : FormPayload) (self : NewPointPresenter) :
    NewPointPresenter :=
  let action : ViewAction :=
    { actionType := .ADD_POINT, updateType := .MINOR, update := withGeneratedId generated point }
  let s1 : NewPointPresenter := { self with dataChanges := self.dataChanges ++ [action] }
  s1.destroy

/-- The private method `#handleDeleteClick`. -/
def handleDeleteClick (self : NewPointPresenter) : NewPointPresenter :=
  self.destroy

/-- The private method `#escKeyDownHandler`, called with the `key` of a
`keydown` event. -/
def escKeyDownHandler (key : String) (self : NewPointPresenter) : NewPointPresenter :=
  if key = "Escape" ∨ key = "Esc" then self.destroy else self

end NewPointPresenter

/-- A presenter on which `init` has run: it holds a point and its two
components. -/
def TripPointPresenter.initialised (self : TripPointPresenter) : Bool :=
  self.point.isSome && self.pointComponent.isSome && self.editorComponent.isSome

/-- Every presenter of the page has been initialised. -/
def Board.AllInitialised (self : Board) : Prop :=
  ∀ p ∈ self.presenters, p.initialised = true

/-! ## Sample data -/

/-- A record of the remote source with id `a`. -/
def rawA : RawPoint :=
  { id := "a", type := "taxi", destination := some "d1", offers := some ["o1"],
    base_price := 20, date_from := some "2024-01-01T00:00:00Z", date_to := none,
    is_favorite := false }

/-- A detailed record with id `a`. -/
def detailedA : PointWithDetails :=
  { id := "a", type := "taxi", dateFrom := none, dateTo := none, basePrice := 25,
    isFavorite := true, destination := none, typeOffers := [], offers := some [] }

/-- A stand-in for `new Date(string)` that maps every string to the epoch. -/
def epochDate : String → JSDate :=
  fun _ => { time := some 0 }

/-- The store after the constructor and one successful load of `[rawA]`. -/
def loadedStore : PointsModel :=
  (PointsModel.init epochDate (.array [some rawA]) PointsModel.new).model

/-- The store after the constructor, `addPoint(detailedA)` and a load that the
remote source rejects. -/
def reloadedStore : PointsModel :=
  (PointsModel.init epochDate (.rejected "offline")
    (PointsModel.addPoint "MINOR" detailedA PointsModel.new).model).model

/-- Three offers of one catalog. -/
def offerA : Offer := { id := "a", title := "Add luggage", price := 30 }

/-- The second offer of the sample catalog. -/
def offerB : Offer := { id := "b", title := "Switch to comfort", price := 100 }

/-- The third offer of the sample catalog. -/
def offerC : Offer := { id := "c", title := "Add meal", price := 15 }

/-- A destination with id `d1`. -/
def destinationD1 : Destination :=
  { id := "d1", name := "Geneva", description := "", pictures := [] }

/-- A second destination carrying the same id `d1`. -/
def destinationD1bis : Destination :=
  { id := "d1", name := "Chamonix", description := "", pictures := [] }

/-- A stored point of type `taxi` with offers `[a, c]` and destination `d1`. -/
def pointAC : Point :=
  { id := "p1", type := "taxi", dateFrom := none, dateTo := none, basePrice := 20,
    isFavorite := false, destination := some "d1", offers := some ["a", "c"],
    typeOffers := none }

/-- A store state whose catalog for `taxi` is `[a, b, c]` and which holds two
destinations with id `d1`. -/
def catalogStore : PointsModel :=
  { points := [pointAC]
    storedPointsWithDetails := []
    destinations := [destinationD1, destinationD1bis]
    offers := [{ type := "taxi", offers := [offerA, offerB, offerC] }]
    notified := [] }

/-- A detailed record whose destination has the empty string as id. -/
def detailedEmptyDestinationId : PointWithDetails :=
  { id := "n1", type := "bus", dateFrom := none, dateTo := none, basePrice := 5,
    isFavorite := false
    destination := some { id := "", name := "Nowhere", description := "", pictures := [] }
    typeOffers := [], offers := none }

/-- The raw record of the normalisation example, completed with an id, a
type, a destination and offers. -/
def rawExample : RawPoint :=
  { id := "r1", type := "flight", destination := none, offers := some [],
    base_price := 20, date_from := some "2024-01-01T00:00:00Z", date_to := none,
    is_favorite := false }

/-- A second detailed record, with id `b`. -/
def detailedB : PointWithDetails :=
  { id := "b", type := "bus", dateFrom := none, dateTo := none, basePrice := 10,
    isFavorite := false, destination := some destinationD1, typeOffers := [offerA],
    offers := some [offerA] }

/-- A page with one presenter, initialised with `detailedA`. -/
def boardOfOne : Board :=
  Board.create [detailedA]

/-- A page with three presenters P1, P2, P3 (positions 0, 1, 2), all freshly
initialised and therefore in mode `DEFAULT`. -/
def boardOfThree : Board :=
  Board.create [detailedA, detailedB, detailedA]

/-- The state `catalogStore` with a different internally kept detailed list. -/
def catalogStoreStale : PointsModel :=
  { catalogStore with storedPointsWithDetails := [detailedA] }

/-- An initialised item presenter holding `detailedA`. -/
def presenterOfA : TripPointPresenter :=
  TripPointPresenter.new.init detailedA

/-- An active creation presenter: constructed with handler identity `7` on a
document without `keydown` listeners, then `init([destinationD1])`. -/
def activeCreation : NewPointPresenter :=
  (NewPointPresenter.new 7 []).init (some [destinationD1])

/-- A form payload without an `id` key. -/
def payloadWithoutId : FormPayload :=
  { id := none, type := "flight", dateFrom := none, dateTo := none, basePrice := 0,
    isFavorite := false, destination := none, typeOffers := [], offers := some [] }

/-- A form payload that carries an `id` key of its own. -/
def payloadWithId : FormPayload :=
  { payloadWithoutId with id := some "own-id" }

/-- A stored point without a destination (`null`) and with the empty offer
list. -/
def pointWithoutDestination : Point :=
  { id := "p2", type := "taxi", dateFrom := none, dateTo := none, basePrice := 10,
    isFavorite := false, destination := none, offers := some [], typeOffers := none }

/-! ## Lemmas on the built-ins -/

theorem find?_first {α : Type} (p : α → Bool) (pre : List α) (x : α) (post : List α)
    (hx : p x = true) (hpre : ∀ e ∈ pre, p e = false) :
    (pre ++ x :: post).find? p = some x := by
  induction pre with
  | nil => simp [List.find?, hx]
  | cons y ys ih =>
    have hy : p y = false := hpre y (List.mem_cons_self _ _)
    have hys : ∀ e ∈ ys, p e = false := fun e he => hpre e (List.mem_cons_of_mem _ he)
    simp [List.find?, hy, ih hys]

theorem find?_absent {α : Type} (p : α → Bool) (xs : List α)
    (hall : ∀ e ∈ xs, p e = false) : xs.find? p = none := by
  induction xs with
  | nil => rfl
  | cons y ys ih =>
    have hy : p y = false := hall y (List.mem_cons_self _ _)
    have hys : ∀ e ∈ ys, p e = false := fun e he => hall e (List.mem_cons_of_mem _ he)
    simp [List.find?, hy, ih hys]

theorem adaptAll_eq_none_of_mem (newDate : String → JSDate) (items : List (Option RawPoint))
    (h : none ∈ items) : PointsModel.adaptAll newDate items = none := by
  induction items with
  | nil => cases h
  | cons x xs ih =>
    cases x with
    | none => rfl
    | some r =>
      have hxs : none ∈ xs := by
        rcases List.mem_cons.mp h with h1 | h1
        · cases h1
        · exact h1
      simp [PointsModel.adaptAll, ih hxs]

/-! ## The entity store -/

/-- C1: after the constructor and one successful load of a record with id `a`,
the raw point list holds a point with id `a`, yet `updatePoint` with a record
of id `a` throws "Can't update non-existing point" and leaves the raw list as
it was: the lookup runs on the separately kept detailed list, which `init`
never fills. -/
theorem updatePoint_of_loaded_id :
    (loadedStore.points.map fun p => p.id) = ["a"] ∧
    detailedA.id = "a" ∧
    (PointsModel.updatePoint "PATCH" detailedA loadedStore).error =
      some "Can't update non-existing point" ∧
    (PointsModel.updatePoint "PATCH" detailedA loadedStore).model.points =
      loadedStore.points := by
  decide

/-- C2: after the constructor, `addPoint` of a record with id `a` and a load
that the remote source rejects, the raw point list is empty, yet `updatePoint`
and `deletePoint` with a record of id `a` both return normally, and
`updatePoint` leaves a raw list of one record behind. -/
theorem mutation_of_absent_id :
    reloadedStore.points = [] ∧
    (PointsModel.updatePoint "PATCH" detailedA reloadedStore).error = none ∧
    (PointsModel.updatePoint "PATCH" detailedA reloadedStore).model.points =
      [PointsModel._extractBasePointData detailedA] ∧
    (PointsModel.deletePoint "MINOR" detailedA reloadedStore).error = none := by
  decide

/-- C3: the element of `pointsWithDetails` at the position of a raw point has
`typeOffers` equal to the offer list of the first catalog entry of the point's
type (the empty list when no entry has that type) and `offers` equal to
`typeOffers` filtered, in catalog order, to the entries whose id occurs in the
point's offers (the empty list when the point's offers is not an array). -/
theorem pointsWithDetails_offers (self : PointsModel) (i : Nat) (point : Point)
    (hpoint : self.points[i]? = some point) :
    ∃ d, self.pointsWithDetails[i]? = some d ∧
      (∀ pre entry post, self.offers = pre ++ entry :: post → entry.type = point.type →
        (∀ e ∈ pre, e.type ≠ point.type) → d.typeOffers = entry.offers) ∧
      ((∀ e ∈ self.offers, e.type ≠ point.type) → d.typeOffers = []) ∧
      (∀ ids, point.offers = some ids →
        d.offers = some (d.typeOffers.filter fun offer => decide (offer.id ∈ ids))) ∧
      (point.offers = none → d.offers = some []) := by
  refine ⟨self.withDetails point, by simp [PointsModel.pointsWithDetails, hpoint],
    ?_, ?_, ?_, ?_⟩
  · intro pre entry post hsplit htype hpre
    have hfind : self.offers.find? (fun offer => decide (offer.type = point.type)) =
        some entry := by
      rw [hsplit]
      exact find?_first _ pre entry post (by simp [htype]) (fun e he => by simp [hpre e he])
    simp [PointsModel.withDetails, hfind]
  · intro hall
    have hfind : self.offers.find? (fun offer => decide (offer.type = point.type)) = none :=
      find?_absent _ _ (fun e he => by simp [hall e he])
    simp [PointsModel.withDetails, hfind]
  · intro ids hids
    simp [PointsModel.withDetails, hids]
  · intro hnone
    simp [PointsModel.withDetails, hnone]

/-- C3, the example of the specification: offers `[a, c]` against the catalog
`[a, b, c]` give `offers = [a, c]` and `typeOffers = [a, b, c]`. -/
theorem pointsWithDetails_offers_example :
    catalogStore.points[0]? = some pointAC ∧
    pointAC.offers = some ["a", "c"] ∧
    ∃ d, catalogStore.pointsWithDetails[0]? = some d ∧
      d.typeOffers = [offerA, offerB, offerC] ∧ d.offers = some [offerA, offerC] := by
  obtain ⟨d, hd, hfirst, _, hsome, _⟩ := pointsWithDetails_offers catalogStore 0 pointAC rfl
  have htype : d.typeOffers = [offerA, offerB, offerC] :=
    hfirst [] { type := "taxi", offers := [offerA, offerB, offerC] } [] rfl rfl
      (fun e he => by cases he)
  refine ⟨rfl, rfl, d, hd, htype, ?_⟩
  rw [hsome ["a", "c"] rfl, htype]
  decide

/-- C4: the projection yields one element for every raw point, with the
point's id; its `destination` is `null` when the point's destination is `null`
or equals the id of no loaded destination, and is the first loaded destination
with that id otherwise. -/
theorem pointsWithDetails_destination (self : PointsModel) (i : Nat) (point : Point)
    (hpoint : self.points[i]? = some point) :
    self.pointsWithDetails.length = self.points.length ∧
    ∃ d, self.pointsWithDetails[i]? = some d ∧ d.id = point.id ∧
      (point.destination = none → d.destination = none) ∧
      ((∀ dest ∈ self.destinations, some dest.id ≠ point.destination) →
        d.destination = none) ∧
      (∀ pre dest post, self.destinations = pre ++ dest :: post →
        some dest.id = point.destination →
        (∀ e ∈ pre, some e.id ≠ point.destination) → d.destination = some dest) := by
  refine ⟨by simp [PointsModel.pointsWithDetails], self.withDetails point,
    by simp [PointsModel.pointsWithDetails, hpoint], rfl, ?_, ?_, ?_⟩
  · intro hnone
    have hfind : self.destinations.find?
        (fun dest => decide (some dest.id = point.destination)) = none :=
      find?_absent _ _ (fun e _ => by simp [hnone])
    simp [PointsModel.withDetails, hfind]
  · intro hall
    have hfind : self.destinations.find?
        (fun dest => decide (some dest.id = point.destination)) = none :=
      find?_absent _ _ (fun e he => by simp [hall e he])
    simp [PointsModel.withDetails, hfind]
  · intro pre dest post hsplit hid hpre
    have hfind : self.destinations.find?
        (fun dest => decide (some dest.id = point.destination)) = some dest := by
      rw [hsplit]
      exact find?_first _ pre dest post (by simp [hid]) (fun e he => by simp [hpre e he])
    simp [PointsModel.withDetails, hfind]

/-- C4 at a concrete state: of two loaded destinations with id `d1` the
projection of a point referring to `d1` carries the first. -/
theorem pointsWithDetails_destination_example :
    catalogStore.points[0]? = some pointAC ∧
    catalogStore.pointsWithDetails.length = 1 ∧
    ∃ d, catalogStore.pointsWithDetails[0]? = some d ∧ d.destination = some destinationD1 := by
  obtain ⟨hlen, d, hd, _, _, _, hfirst⟩ :=
    pointsWithDetails_destination catalogStore 0 pointAC rfl
  exact ⟨rfl, hlen, d, hd,
    hfirst [] destinationD1 [destinationD1bis] rfl rfl (fun e he => by cases he)⟩

/-- C5, as stated, fails: for a detailed point whose destination has the empty
string as id, the record that `addPoint` puts in front of the raw list has
destination `null`, not that id. -/
theorem addPoint_empty_destination_id :
    (detailedEmptyDestinationId.destination.map fun dest => dest.id) = some "" ∧
    ((PointsModel.addPoint "MINOR" detailedEmptyDestinationId PointsModel.new).model.points.map
      fun p => p.destination) = [none] := by
  decide

/-- C5, amended: `addPoint` returns normally and afterwards the raw point list
is the record derived from `p` followed by the previous raw list, one element
longer; the derived record has the fields of `p`, except that `destination` is
the id of `p`'s destination when that id is a non-empty string and `null` when
the destination is absent or its id is the empty string, and `offers` is the
list of ids of `p`'s offers (`null` when absent). -/
theorem addPoint_prepends_base_record (updateType : String) (p : PointWithDetails)
    (self : PointsModel) :
    (PointsModel.addPoint updateType p self).error = none ∧
    (PointsModel.addPoint updateType p self).model.points.length = self.points.length + 1 ∧
    ∃ base, (PointsModel.addPoint updateType p self).model.points = base :: self.points ∧
      base = PointsModel._extractBasePointData p ∧
      base.id = p.id ∧ base.type = p.type ∧ base.dateFrom = p.dateFrom ∧
      base.dateTo = p.dateTo ∧ base.basePrice = p.basePrice ∧
      base.isFavorite = p.isFavorite ∧ base.typeOffers = some p.typeOffers ∧
      (p.destination = none → base.destination = none) ∧
      (∀ dest, p.destination = some dest → dest.id ≠ "" → base.destination = some dest.id) ∧
      (∀ dest, p.destination = some dest → dest.id = "" → base.destination = none) ∧
      (p.offers = none → base.offers = none) ∧
      (∀ os, p.offers = some os → base.offers = some (os.map fun offer => offer.id)) := by
  refine ⟨rfl, by simp [PointsModel.addPoint, PointsModel._notify], _, rfl, rfl,
    rfl, rfl, rfl, rfl, rfl, rfl, rfl, ?_, ?_, ?_, ?_, ?_⟩
  · intro h
    simp [PointsModel._extractBasePointData, h]
  · intro dest h hne
    simp [PointsModel._extractBasePointData, h, truthy, hne]
  · intro dest h he
    simp [PointsModel._extractBasePointData, h, truthy, he]
  · intro h
    simp [PointsModel._extractBasePointData, h]
  · intro os h
    simp [PointsModel._extractBasePointData, h]

/-- C6: after the constructor and one successful load of a record with id `a`
(raw ids pairwise distinct, `a` present), `deletePoint` with a record of id
`a` throws "Can't delete non-existing point" and the point stays in the raw
list. -/
theorem deletePoint_of_loaded_id :
    (loadedStore.points.map fun p => p.id) = ["a"] ∧
    detailedA.id = "a" ∧
    (PointsModel.deletePoint "MINOR" detailedA loadedStore).error =
      some "Can't delete non-existing point" ∧
    ((PointsModel.deletePoint "MINOR" detailedA loadedStore).model.points.map fun p => p.id) =
      ["a"] := by
  decide

/-- C7: `#adaptToClient` returns a record with `basePrice = base_price`,
`isFavorite = is_favorite`, `dateFrom` / `dateTo` equal to `null` when
`date_from` / `date_to` is `null` and to the parsed date otherwise, and with
`id`, `type`, `destination` and `offers` unchanged; the result type has no
field for the four provider keys. The example record of the specification becomes
`{basePrice: 20, dateFrom: new Date("2024-01-01T00:00:00Z"), dateTo: null,
isFavorite: false}`. -/
theorem adaptToClient_normalises (newDate : String → JSDate) (r : RawPoint) :
    (PointsModel.adaptToClient newDate r).basePrice = r.base_price ∧
    (PointsModel.adaptToClient newDate r).isFavorite = r.is_favorite ∧
    (r.date_from = none → (PointsModel.adaptToClient newDate r).dateFrom = none) ∧
    (∀ s, r.date_from = some s →
      (PointsModel.adaptToClient newDate r).dateFrom = some (newDate s)) ∧
    (r.date_to = none → (PointsModel.adaptToClient newDate r).dateTo = none) ∧
    (∀ s, r.date_to = some s →
      (PointsModel.adaptToClient newDate r).dateTo = some (newDate s)) ∧
    (PointsModel.adaptToClient newDate r).id = r.id ∧
    (PointsModel.adaptToClient newDate r).type = r.type ∧
    (PointsModel.adaptToClient newDate r).destination = r.destination ∧
    (PointsModel.adaptToClient newDate r).offers = r.offers ∧
    (PointsModel.adaptToClient newDate rawExample).basePrice = 20 ∧
    (PointsModel.adaptToClient newDate rawExample).dateFrom =
      some (newDate "2024-01-01T00:00:00Z") ∧
    (PointsModel.adaptToClient newDate rawExample).dateTo = none ∧
    (PointsModel.adaptToClient newDate rawExample).isFavorite = false := by
  refine ⟨rfl, rfl, ?_, ?_, ?_, ?_, rfl, rfl, rfl, rfl, rfl, rfl, rfl, rfl⟩
  · intro h
    simp [PointsModel.adaptToClient, h]
  · intro s h
    simp [PointsModel.adaptToClient, h]
  · intro h
    simp [PointsModel.adaptToClient, h]
  · intro s h
    simp [PointsModel.adaptToClient, h]

/-- C8: when the remote source rejects, or resolves to something that is not
an array, or to an array with a `null` element, `init` returns normally, the
raw point list is empty afterwards and `pointsWithDetails` is the empty
sequence. -/
theorem init_absorbs_failure (newDate : String → JSDate) (outcome : ApiOutcome)
    (self : PointsModel)
    (hfail : (∃ err, outcome = .rejected err) ∨ outcome = .notArray ∨
      ∃ items, outcome = .array items ∧ none ∈ items) :
    (PointsModel.init newDate outcome self).error = none ∧
    (PointsModel.init newDate outcome self).model.points = [] ∧
    (PointsModel.init newDate outcome self).model.pointsWithDetails = [] := by
  rcases hfail with ⟨err, rfl⟩ | rfl | ⟨items, rfl, hmem⟩
  · exact ⟨rfl, rfl, rfl⟩
  · exact ⟨rfl, rfl, rfl⟩
  · have h := adaptAll_eq_none_of_mem newDate items hmem
    simp [PointsModel.init, h, PointsModel.pointsWithDetails]

/-- C8 at a concrete state: a store holding a point whose reload is rejected
ends with an empty raw list and an empty projection. -/
theorem init_absorbs_failure_example :
    loadedStore.points ≠ [] ∧
    (PointsModel.init epochDate (.rejected "offline") loadedStore).error = none ∧
    (PointsModel.init epochDate (.rejected "offline") loadedStore).model.points = [] ∧
    (PointsModel.init epochDate (.rejected "offline") loadedStore).model.pointsWithDetails =
      [] :=
  ⟨by decide, init_absorbs_failure epochDate (.rejected "offline") loadedStore
    (Or.inl ⟨"offline", rfl⟩)⟩

/-! ## The item presenter -/

/-- C9: on a page with one initialised presenter, an edit click followed by
`resetView()` leaves the presenter in mode `DEFAULT` with its `keydown`
handler still registered, and an edit click followed by `destroy()` leaves
the handler registered as well; the close-button path, in contrast, removes
it. -/
theorem listener_kept_by_resetView_and_destroy :
    ((Board.run 0 [.editClick, .resetView] boardOfOne).toOption.map
      fun b => (b.modes, b.keydownListeners)) = some ([.DEFAULT], [0]) ∧
    ((Board.run 0 [.editClick, .destroy] boardOfOne).toOption.map
      fun b => b.keydownListeners) = some [0] ∧
    ((Board.run 0 [.editClick, .closeClick] boardOfOne).toOption.map
      fun b => (b.modes, b.keydownListeners)) = some ([.DEFAULT], []) := by
  decide

theorem onPresenter_ok (b : Board) (i : Nat)
    (f : TripPointPresenter → Except String TripPointPresenter) (p q : TripPointPresenter)
    (hp : b.presenters[i]? = some p) (hf : f p = .ok q) :
    b.onPresenter i f = .ok { b with presenters := b.presenters.set i q } := by
  simp [Board.onPresenter, hp, hf]

theorem resetView_of_initialised (p : TripPointPresenter) (h : p.initialised = true) :
    ∃ q, p.resetView = .ok q ∧ q.initialised = true ∧ q.mode = .DEFAULT := by
  obtain ⟨point, pointComponent, editorComponent, mode, itemRendered, mounted, dataChanges⟩ := p
  simp only [TripPointPresenter.initialised, Bool.and_eq_true, Option.isSome_iff_exists] at h
  obtain ⟨⟨⟨pt, rfl⟩, ⟨pc, rfl⟩⟩, ⟨ed, rfl⟩⟩ := h
  cases mode with
  | DEFAULT =>
    exact ⟨_, rfl, by simp [TripPointPresenter.initialised], rfl⟩
  | EDITING =>
    refine ⟨_, rfl, ?_, ?_⟩
    · simp only [TripPointPresenter.replaceEditorToPoint, TripPointPresenter.replace]
      split <;> simp [TripPointPresenter.initialised]
    · simp [TripPointPresenter.replaceEditorToPoint]

theorem allInitialised_set (b : Board) (i : Nat) (q : TripPointPresenter)
    (hb : b.AllInitialised) (hq : q.initialised = true) :
    Board.AllInitialised { b with presenters := b.presenters.set i q } := by
  intro p hp
  rcases List.mem_or_eq_of_mem_set hp with h | h
  · exact hb p h
  · exact h ▸ hq

theorem resetOthers_spec (i : Nat) (js : List Nat) :
    ∀ b : Board, b.AllInitialised → (∀ j ∈ js, j < b.presenters.length) →
      ∃ b1, Board.resetOthers i js b = .ok b1 ∧
        b1.presenters.length = b.presenters.length ∧
        b1.keydownListeners = b.keydownListeners ∧
        b1.AllInitialised ∧
        b1.presenters[i]? = b.presenters[i]? ∧
        ∀ k p, b1.presenters[k]? = some p → k ≠ i →
          (k ∈ js ∨ ∃ p0, b.presenters[k]? = some p0 ∧ p0.mode = .DEFAULT) →
          p.mode = .DEFAULT := by
  induction js with
  | nil =>
    intro b hb _
    refine ⟨b, rfl, rfl, rfl, hb, rfl, ?_⟩
    intro k p hk _ hor
    rcases hor with h | ⟨p0, hp0, hmode⟩
    · cases h
    · rw [hk] at hp0
      cases hp0
      exact hmode
  | cons j js ih =>
    intro b hb hjs
    have hjs1 : ∀ x ∈ js, x < b.presenters.length :=
      fun x hx => hjs x (List.mem_cons_of_mem _ hx)
    by_cases hji : j = i
    · obtain ⟨b1, hrun, hlen, hlis, hinit, hi, hmodes⟩ := ih b hb hjs1
      refine ⟨b1, by simp [Board.resetOthers, hji, hrun], hlen, hlis, hinit, hi, ?_⟩
      intro k p hk hki hor
      refine hmodes k p hk hki ?_
      rcases hor with h | h
      · rcases List.mem_cons.mp h with h1 | h1
        · exact absurd (h1.trans hji) hki
        · exact Or.inl h1
      · exact Or.inr h
    · have hjlt : j < b.presenters.length := hjs j (List.mem_cons_self _ _)
      have hpj : b.presenters[j]? = some (b.presenters[j]) := List.getElem?_eq_getElem hjlt
      obtain ⟨q, hq, hqinit, hqmode⟩ :=
        resetView_of_initialised (b.presenters[j]) (hb _ (List.getElem_mem hjlt))
      have hstep : b.resetView j = .ok { b with presenters := b.presenters.set j q } :=
        onPresenter_ok b j _ _ q hpj hq
      have hb1 := allInitialised_set b j q hb hqinit
      obtain ⟨b2, hrun, hlen, hlis, hinit, hi, hmodes⟩ :=
        ih { b with presenters := b.presenters.set j q } hb1 (by simpa using hjs1)
      refine ⟨b2, by simp [Board.resetOthers, hji, hstep, hrun], by simpa using hlen,
        by simpa using hlis, hinit, ?_, ?_⟩
      · rw [hi]
        exact List.getElem?_set_ne hji
      · intro k p hk hki hor
        refine hmodes k p hk hki ?_
        by_cases hkj : k = j
        · refine Or.inr ⟨q, ?_, hqmode⟩
          rw [hkj]
          exact List.getElem?_set_self hjlt
        · rcases hor with h | ⟨p0, hp0, hmode⟩
          · rcases List.mem_cons.mp h with h1 | h1
            · exact absurd h1 hkj
            · exact Or.inl h1
          · refine Or.inr ⟨p0, ?_, hmode⟩
            rw [← hp0]
            exact List.getElem?_set_ne (Ne.symm hkj)

theorem initialised_replace (p : TripPointPresenter) (a c : ViewKind)
    (h : p.initialised = true) : (p.replace a c).initialised = true := by
  unfold TripPointPresenter.replace
  split
  · simpa [TripPointPresenter.initialised] using h
  · exact h

theorem addEventListener_presenters (b : Board) (i : Nat) :
    (b.addEventListener i).presenters = b.presenters := by
  unfold Board.addEventListener
  split <;> rfl

theorem onEditButtonClick_spec (b : Board) (i : Nat) (hb : b.AllInitialised)
    (hi : i < b.presenters.length) :
    ∃ b1, b.onEditButtonClick i = .ok b1 ∧
      b1.presenters.length = b.presenters.length ∧
      b1.AllInitialised ∧
      ∀ k p, b1.presenters[k]? = some p → (p.mode = .EDITING ↔ k = i) := by
  obtain ⟨ps, ls⟩ := b
  obtain ⟨pi, hpi⟩ : ∃ pi, ps[i]? = some pi := ⟨ps[i], List.getElem?_eq_getElem hi⟩
  have hinit : pi.initialised = true := hb _ (List.getElem?_mem hpi)
  have hview : pi.pointComponent ≠ none := by
    intro hnone
    simp [TripPointPresenter.initialised, hnone] at hinit
  -- the read view exists
  have h0 : Board.onPresenter i (fun p =>
      if p.pointComponent = none then .error "no read view" else .ok p) ⟨ps, ls⟩ =
      .ok ⟨ps.set i pi, ls⟩ :=
    onPresenter_ok ⟨ps, ls⟩ i _ _ _ hpi (by simp [hview])
  have hb0 : Board.AllInitialised ⟨ps.set i pi, ls⟩ := allInitialised_set ⟨ps, ls⟩ i _ hb hinit
  -- replace(editor, read view)
  have hi0 : i < ps.length := hi
  have h1 : Board.onPresenter i (fun p => .ok (p.replace .editor .point)) ⟨ps.set i pi, ls⟩ =
      .ok ⟨(ps.set i pi).set i (pi.replace .editor .point), ls⟩ :=
    onPresenter_ok ⟨ps.set i pi, ls⟩ i _ _ _ (List.getElem?_set_self hi0) rfl
  have hb1 : Board.AllInitialised ⟨(ps.set i pi).set i (pi.replace .editor .point), ls⟩ :=
    allInitialised_set ⟨ps.set i pi, ls⟩ i _ hb0 (initialised_replace _ .editor .point hinit)
  -- the mode-change callback
  obtain ⟨b2, h2, hlen2, _, hb2, hi2, hmodes2⟩ :=
    resetOthers_spec i (List.range ps.length)
      ⟨(ps.set i pi).set i (pi.replace .editor .point), ls⟩
      hb1 (fun j hj => by simpa using List.mem_range.mp hj)
  have hlen2b : b2.presenters.length = ps.length := by simpa using hlen2
  have hp2 : b2.presenters[i]? = some (pi.replace .editor .point) := by
    rw [hi2]
    exact List.getElem?_set_self (by simpa using hi0)
  -- this.#mode = Mode.EDITING
  have h3 : Board.onPresenter i (fun p => .ok { p with mode := .EDITING }) b2 =
      .ok ⟨b2.presenters.set i { pi.replace .editor .point with mode := .EDITING },
        b2.keydownListeners⟩ :=
    onPresenter_ok b2 i _ _ _ hp2 rfl
  have hb3 : Board.AllInitialised
      ⟨b2.presenters.set i { pi.replace .editor .point with mode := .EDITING },
        b2.keydownListeners⟩ :=
    allInitialised_set b2 i _ hb2 (by
      have := initialised_replace pi .editor .point hinit
      simpa [TripPointPresenter.initialised] using this)
  refine ⟨Board.addEventListener i
      ⟨b2.presenters.set i { pi.replace .editor .point with mode := .EDITING },
        b2.keydownListeners⟩, ?_, ?_, ?_, ?_⟩
  · simp only [Board.onEditButtonClick, Board.replacePointToEditor, Board.handleModeChange,
      bind, Except.bind, h0, h1, List.length_set, h2, h3, pure, Except.pure]
  · rw [addEventListener_presenters]
    simpa using hlen2b
  · intro p hp
    rw [addEventListener_presenters] at hp
    exact hb3 p hp
  · intro k p hk
    rw [addEventListener_presenters] at hk
    by_cases hki : k = i
    · subst hki
      have hkl : k < b2.presenters.length := by
        rw [hlen2b]
        exact hi0
      rw [List.getElem?_set_self hkl] at hk
      cases hk
      simp
    · rw [List.getElem?_set_ne (Ne.symm hki)] at hk
      have hklt : k < ps.length := by
        have := (List.getElem?_eq_some.mp hk).1
        omega
      have hdef : p.mode = .DEFAULT :=
        hmodes2 k p hk hki (Or.inl (List.mem_range.mpr hklt))
      simp [hdef, hki]

theorem editIntents_spec (intents : List Nat) :
    ∀ b : Board, b.AllInitialised → (∀ i ∈ intents, i < b.presenters.length) →
      ∃ b1, b.editIntents intents = .ok b1 ∧
        b1.presenters.length = b.presenters.length ∧
        (intents = [] → b1 = b) ∧
        ∀ last, intents.getLast? = some last →
          ∀ k p, b1.presenters[k]? = some p → (p.mode = .EDITING ↔ k = last) := by
  induction intents with
  | nil =>
    intro b _ _
    exact ⟨b, rfl, rfl, fun _ => rfl, fun last h => by cases h⟩
  | cons i is ih =>
    intro b hb hidx
    obtain ⟨b1, h1, hlen1, hb1, hmodes1⟩ :=
      onEditButtonClick_spec b i hb (hidx i (List.mem_cons_self _ _))
    obtain ⟨b2, h2, hlen2, hnil2, hmodes2⟩ :=
      ih b1 hb1 (fun x hx => by
        rw [hlen1]
        exact hidx x (List.mem_cons_of_mem _ hx))
    refine ⟨b2, by simp [Board.editIntents, h1, h2], by omega, (fun h => by cases h), ?_⟩
    intro last hlast k p hk
    cases is with
    | nil =>
      have hb2 : b2 = b1 := hnil2 rfl
      subst hb2
      simp at hlast
      subst hlast
      exact hmodes1 k p hk
    | cons x xs =>
      rw [List.getLast?_cons_cons] at hlast
      exact hmodes2 last hlast k p hk

/-- C10: on a page whose presenters are all initialised and in mode `DEFAULT`
and whose mode-change callback resets every other presenter, every run of
edit intents on presenters of the page completes, and afterwards a presenter
is in mode `EDITING` exactly when it received the last edit intent and in
mode `DEFAULT` otherwise; so at most one presenter is editing. -/
theorem single_editor (b : Board) (intents : List Nat)
    (hinit : b.AllInitialised)
    (hstart : ∀ p ∈ b.presenters, p.mode = .DEFAULT)
    (hidx : ∀ i ∈ intents, i < b.presenters.length) :
    ∃ b1, b.editIntents intents = .ok b1 ∧
      b1.modes.length = b.modes.length ∧
      ∀ j, j < b.presenters.length →
        (b1.modes[j]? = some .EDITING ↔ intents.getLast? = some j) ∧
        (b1.modes[j]? = some .DEFAULT ↔ intents.getLast? ≠ some j) := by
  obtain ⟨b1, hrun, hlen, hnil, hmodes⟩ := editIntents_spec intents b hinit hidx
  refine ⟨b1, hrun, by simp [Board.modes, hlen], ?_⟩
  intro j hj
  have hj1 : j < b1.presenters.length := by omega
  have hpj : b1.presenters[j]? = some (b1.presenters[j]) := List.getElem?_eq_getElem hj1
  have hmj : b1.modes[j]? = some (b1.presenters[j]).mode := by
    simp [Board.modes, hpj]
  rw [hmj]
  cases hl : intents.getLast? with
  | none =>
    have hempty : intents = [] := List.getLast?_eq_none_iff.mp hl
    have hb1 : b1 = b := hnil hempty
    subst hb1
    have hdef : (b1.presenters[j]).mode = .DEFAULT := hstart _ (List.getElem_mem hj1)
    rw [hdef]
    simp
  | some last =>
    have hiff := hmodes last hl j _ hpj
    by_cases hjl : j = last
    · have hed : (b1.presenters[j]).mode = .EDITING := hiff.mpr hjl
      rw [hed]
      simp [hjl]
    · have hne : (b1.presenters[j]).mode ≠ .EDITING := fun h => hjl (hiff.mp h)
      have hdef : (b1.presenters[j]).mode = .DEFAULT := by
        cases hm : (b1.presenters[j]).mode with
        | DEFAULT => rfl
        | EDITING => exact absurd hm hne
      have hlj : last ≠ j := fun h => hjl h.symm
      rw [hdef]
      simp [hlj]

/-- C10, the example of the specification: with P1, P2, P3 all in mode `DEFAULT`, an
edit intent on P2 followed by an edit intent on P3 leaves P1 and P2 in
`DEFAULT` and P3 in `EDITING`. -/
theorem single_editor_example :
    boardOfThree.modes = [.DEFAULT, .DEFAULT, .DEFAULT] ∧
    ∃ b1, boardOfThree.editIntents [1, 2] = .ok b1 ∧
      b1.modes = [.DEFAULT, .DEFAULT, .EDITING] := by
  obtain ⟨b1, hrun, hlen, hmodes⟩ := single_editor boardOfThree [1, 2]
    (by unfold Board.AllInitialised; decide) (by decide) (by decide)
  refine ⟨by decide, b1, hrun, ?_⟩
  have h0 := (hmodes 0 (by decide)).2.mpr (by decide)
  have h1 := (hmodes 1 (by decide)).2.mpr (by decide)
  have h2 := (hmodes 2 (by decide)).1.mpr (by decide)
  have hlen3 : b1.modes.length = 3 := hlen.trans (by decide)
  match hm : b1.modes, hlen3 with
  | [m0, m1, m2], _ =>
    rw [hm] at h0 h1 h2
    simp at h0 h1 h2
    simp [h0, h1, h2]

/-! ## Projection purity -/

theorem withDetails_congr (s t : PointsModel) (hd : s.destinations = t.destinations)
    (ho : s.offers = t.offers) : s.withDetails = t.withDetails := by
  funext point
  simp [PointsModel.withDetails, hd, ho]

/-- C12: two store states that agree on the raw points, the destinations and
the offers return equal projections, whatever their internally kept detailed
lists; the projection has the length and the id order of the raw point list.
The getter assigns no field, so it is a function of the state: reading it
leaves the state as it is and two reads of one state are equal. -/
theorem pointsWithDetails_depends_on_raw_state (s t : PointsModel)
    (hp : s.points = t.points) (hd : s.destinations = t.destinations)
    (ho : s.offers = t.offers) :
    s.pointsWithDetails = t.pointsWithDetails ∧
    s.pointsWithDetails.length = s.points.length ∧
    (s.pointsWithDetails.map fun d => d.id) = s.points.map fun p => p.id := by
  refine ⟨?_, ?_, ?_⟩
  · simp [PointsModel.pointsWithDetails, hp, withDetails_congr s t hd ho]
  · simp [PointsModel.pointsWithDetails]
  · simp [PointsModel.pointsWithDetails, PointsModel.withDetails, Function.comp_def]

/-- C12 at a concrete pair of states that differ in the detailed list only. -/
theorem pointsWithDetails_depends_on_raw_state_example :
    catalogStore.storedPointsWithDetails ≠ catalogStoreStale.storedPointsWithDetails ∧
    catalogStore.pointsWithDetails = catalogStoreStale.pointsWithDetails ∧
    catalogStore.pointsWithDetails.length = 1 ∧
    (catalogStore.pointsWithDetails.map fun d => d.id) = ["p1"] := by
  obtain ⟨h1, h2, h3⟩ :=
    pointsWithDetails_depends_on_raw_state catalogStore catalogStoreStale rfl rfl rfl
  exact ⟨by decide, h1, h2.trans (by decide), h3.trans (by decide)⟩

/-! ## Favorite toggle -/

/-- C13: on a presenter holding point `p`, a favorite click returns normally
and calls `#handleDataChange` exactly once, with a record that equals `p` in
every field except `isFavorite`, which is negated; the mode, the held point
and every other field of the presenter stay as they were. -/
theorem favorite_click_inverts_flag (q : TripPointPresenter) (p : PointWithDetails)
    (hp : q.point = some p) :
    ∃ q1 r, q.handleFavoriteClick = .ok q1 ∧
      q1.dataChanges = q.dataChanges ++ [r] ∧
      r.isFavorite = (!p.isFavorite) ∧
      r.id = p.id ∧ r.type = p.type ∧ r.dateFrom = p.dateFrom ∧ r.dateTo = p.dateTo ∧
      r.basePrice = p.basePrice ∧ r.destination = p.destination ∧
      r.typeOffers = p.typeOffers ∧ r.offers = p.offers ∧
      q1.mode = q.mode ∧ q1.point = q.point ∧
      q1.pointComponent = q.pointComponent ∧ q1.editorComponent = q.editorComponent ∧
      q1.mounted = q.mounted ∧ q1.itemRendered = q.itemRendered := by
  refine ⟨{ q with dataChanges := q.dataChanges ++ [{ p with isFavorite := !p.isFavorite }] },
    { p with isFavorite := !p.isFavorite }, ?_, rfl, rfl, rfl, rfl, rfl, rfl, rfl, rfl, rfl,
    rfl, rfl, rfl, rfl, rfl, rfl, rfl⟩
  simp [TripPointPresenter.handleFavoriteClick, hp]

/-- C13 at a concrete presenter: the favorite `detailedA` is reported once, as
a non-favorite. -/
theorem favorite_click_inverts_flag_example :
    presenterOfA.point = some detailedA ∧ detailedA.isFavorite = true ∧
    ∃ q1 r, presenterOfA.handleFavoriteClick = .ok q1 ∧
      q1.dataChanges = [r] ∧ r.isFavorite = false ∧ r.id = "a" ∧ q1.mode = .DEFAULT := by
  obtain ⟨q1, r, hrun, hlog, hfav, hid, _, _, _, _, _, _, _, hmode, _⟩ :=
    favorite_click_inverts_flag presenterOfA detailedA rfl
  exact ⟨rfl, rfl, q1, r, hrun, hlog, hfav, hid, hmode⟩

/-! ## The creation presenter -/

/-- C14, as stated, fails: `init([])` on an active creation presenter that was
initialised with one destination replaces the stored destinations. -/
theorem init_of_active_stores_destinations :
    activeCreation.pointEditComponent ≠ none ∧
    activeCreation.destinations = some [destinationD1] ∧
    (NewPointPresenter.init (some []) activeCreation).destinations = some [] := by
  decide

/-- C14, amended: on an active creation presenter `init(destinations)` stores
its argument in `#destinations` and changes nothing else: the edit component
is the same, no further view is mounted, the list item stays as it is, the
`keydown` listener list is unchanged and no callback is called. -/
theorem init_of_active_only_stores_destinations (destinations : Option (List Destination))
    (self : NewPointPresenter) (hactive : self.pointEditComponent ≠ none) :
    NewPointPresenter.init destinations self = { self with destinations := destinations } ∧
    (NewPointPresenter.init destinations self).destinations = destinations ∧
    (NewPointPresenter.init destinations self).pointEditComponent = self.pointEditComponent ∧
    (NewPointPresenter.init destinations self).mountedEditors = self.mountedEditors ∧
    (NewPointPresenter.init destinations self).itemRendered = self.itemRendered ∧
    (NewPointPresenter.init destinations self).keydownListeners = self.keydownListeners ∧
    (NewPointPresenter.init destinations self).dataChanges = self.dataChanges ∧
    (NewPointPresenter.init destinations self).destroyCalls = self.destroyCalls := by
  have h : NewPointPresenter.init destinations self =
      { self with destinations := destinations } := by
    simp [NewPointPresenter.init, hactive]
  rw [h]
  exact ⟨rfl, rfl, rfl, rfl, rfl, rfl, rfl, rfl⟩

/-- C14, amended, at a concrete presenter: a second `init` on the active
presenter leaves one mounted view and one listener. -/
theorem init_of_active_only_stores_destinations_example :
    activeCreation.pointEditComponent ≠ none ∧
    (NewPointPresenter.init (some []) activeCreation).mountedEditors.length = 1 ∧
    (NewPointPresenter.init (some []) activeCreation).keydownListeners = [7] := by
  obtain ⟨_, _, _, hviews, _, hlisteners, _, _⟩ :=
    init_of_active_only_stores_destinations (some []) activeCreation (by decide)
  exact ⟨by decide, by rw [hviews]; decide, by rw [hlisteners]; decide⟩

/-- C15, as stated, fails: for a payload that carries an `id` key the point
handed to `onDataChange` has the payload's id, not the generated one. -/
theorem handleFormSubmit_keeps_payload_id :
    activeCreation.pointEditComponent ≠ none ∧
    payloadWithId.id = some "own-id" ∧
    ((NewPointPresenter.handleFormSubmit "generated-id" payloadWithId
      activeCreation).dataChanges.map fun a => a.update.id) = ["own-id"] := by
  decide

/-- C15, amended: a submit on an active creation presenter calls
`onDataChange` exactly once, with `ADD_POINT`, `MINOR` and a point whose
fields are the payload's and whose id is the generated identifier when the
payload has no `id` key and the payload's own id when it has one; afterwards
the presenter is inactive: no edit component, list item and views off the
page, its handler taken off the `keydown` listener list, `onDestroy` called
once. -/
theorem handleFormSubmit_adds_point (generated : String) (payload : FormPayload)
    (self : NewPointPresenter) (hactive : self.pointEditComponent ≠ none) :
    ∃ r, (NewPointPresenter.handleFormSubmit generated payload self).dataChanges =
        self.dataChanges ++ [{ actionType := .ADD_POINT, updateType := .MINOR, update := r }] ∧
      (payload.id = none → r.id = generated) ∧
      (∀ own, payload.id = some own → r.id = own) ∧
      r.type = payload.type ∧ r.dateFrom = payload.dateFrom ∧ r.dateTo = payload.dateTo ∧
      r.basePrice = payload.basePrice ∧ r.isFavorite = payload.isFavorite ∧
      r.destination = payload.destination ∧ r.typeOffers = payload.typeOffers ∧
      r.offers = payload.offers ∧
      (NewPointPresenter.handleFormSubmit generated payload self).pointEditComponent = none ∧
      (NewPointPresenter.handleFormSubmit generated payload self).itemRendered = false ∧
      (NewPointPresenter.handleFormSubmit generated payload self).mountedEditors = [] ∧
      (NewPointPresenter.handleFormSubmit generated payload self).keydownListeners =
        self.keydownListeners.erase self.escHandlerId ∧
      (self.keydownListeners.Nodup → self.escHandlerId ∉
        (NewPointPresenter.handleFormSubmit generated payload self).keydownListeners) ∧
      (NewPointPresenter.handleFormSubmit generated payload self).destroyCalls =
        self.destroyCalls + 1 := by
  have hpost : NewPointPresenter.handleFormSubmit generated payload self =
      { self with
        dataChanges := self.dataChanges ++
          [{ actionType := .ADD_POINT, updateType := .MINOR,
             update := NewPointPresenter.withGeneratedId generated payload }]
        destroyCalls := self.destroyCalls + 1
        itemRendered := false
        mountedEditors := []
        pointEditComponent := none
        keydownListeners := self.keydownListeners.erase self.escHandlerId } := by
    simp [NewPointPresenter.handleFormSubmit, NewPointPresenter.destroy, hactive,
      NewPointPresenter.removeEventListener]
  rw [hpost]
  refine ⟨NewPointPresenter.withGeneratedId generated payload, rfl, ?_, ?_, rfl, rfl, rfl,
    rfl, rfl, rfl, rfl, rfl, rfl, rfl, rfl, rfl, ?_, rfl⟩
  · intro h
    simp [NewPointPresenter.withGeneratedId, h]
  · intro own h
    simp [NewPointPresenter.withGeneratedId, h]
  · intro hnodup
    exact fun hmem => (List.Nodup.mem_erase_iff hnodup).mp hmem |>.1 rfl

/-- C15, amended, at a concrete presenter: a payload without an `id` key is
added under the generated identifier and the presenter ends inactive. -/
theorem handleFormSubmit_adds_point_example :
    activeCreation.pointEditComponent ≠ none ∧ payloadWithoutId.id = none ∧
    ((NewPointPresenter.handleFormSubmit "generated-id" payloadWithoutId
      activeCreation).dataChanges.map fun a => (a.actionType, a.updateType, a.update.id)) =
      [(.ADD_POINT, .MINOR, "generated-id")] ∧
    (NewPointPresenter.handleFormSubmit "generated-id" payloadWithoutId
      activeCreation).keydownListeners = [] ∧
    (NewPointPresenter.handleFormSubmit "generated-id" payloadWithoutId
      activeCreation).destroyCalls = 1 := by
  obtain ⟨r, hlog, hgen, _, _, _, _, _, _, _, _, _, _, _, _, hlis, _, hcalls⟩ :=
    handleFormSubmit_adds_point "generated-id" payloadWithoutId activeCreation (by decide)
  refine ⟨by decide, rfl, ?_, by rw [hlis]; decide, by rw [hcalls]; decide⟩
  rw [hlog]
  simp [hgen rfl]
  decide

/-! ## Invariants of the call sequences -/

theorem applyMutation_reference_data (m : Mutation) (s : PointsModel) :
    (s.applyMutation m).model.destinations = s.destinations ∧
    (s.applyMutation m).model.offers = s.offers := by
  cases m with
  | addPoint t u => exact ⟨rfl, rfl⟩
  | updatePoint t u =>
    simp only [PointsModel.applyMutation, PointsModel.updatePoint]
    split <;> exact ⟨rfl, rfl⟩
  | deletePoint t u =>
    simp only [PointsModel.applyMutation, PointsModel.deletePoint]
    split <;> exact ⟨rfl, rfl⟩

theorem init_reference_data (newDate : String → JSDate) (outcome : ApiOutcome)
    (s : PointsModel) :
    (s.init newDate outcome).model.destinations = s.destinations ∧
    (s.init newDate outcome).model.offers = s.offers := by
  cases outcome with
  | rejected e => exact ⟨rfl, rfl⟩
  | notArray => exact ⟨rfl, rfl⟩
  | array items =>
    simp only [PointsModel.init]
    split <;> exact ⟨rfl, rfl⟩

theorem runOps_reference_data (newDate : String → JSDate) (ops : List StoreOp) :
    ∀ s : PointsModel, (PointsModel.runOps newDate ops s).destinations = s.destinations ∧
      (PointsModel.runOps newDate ops s).offers = s.offers := by
  induction ops with
  | nil => intro s; exact ⟨rfl, rfl⟩
  | cons op ops ih =>
    intro s
    have hstep : (s.applyOp newDate op).model.destinations = s.destinations ∧
        (s.applyOp newDate op).model.offers = s.offers := by
      cases op with
      | init outcome => exact init_reference_data newDate outcome s
      | mutate m => exact applyMutation_reference_data m s
    obtain ⟨h1, h2⟩ := ih (s.applyOp newDate op).model
    exact ⟨h1.trans hstep.1, h2.trans hstep.2⟩

/-- C17: in every store state reached from the constructor by a sequence of
`init`, `addPoint`, `updatePoint` and `deletePoint` calls the destinations and
the offers are empty lists, and every element of `pointsWithDetails` has
`destination = null`, `typeOffers = []` and `offers = []`. -/
theorem reference_data_stays_empty (newDate : String → JSDate) (ops : List StoreOp) :
    (PointsModel.runOps newDate ops PointsModel.new).destinations = [] ∧
    (PointsModel.runOps newDate ops PointsModel.new).offers = [] ∧
    ∀ d ∈ (PointsModel.runOps newDate ops PointsModel.new).pointsWithDetails,
      d.destination = none ∧ d.typeOffers = [] ∧ d.offers = some [] := by
  obtain ⟨hd, ho⟩ := runOps_reference_data newDate ops PointsModel.new
  have hd0 : (PointsModel.runOps newDate ops PointsModel.new).destinations = [] := hd
  have ho0 : (PointsModel.runOps newDate ops PointsModel.new).offers = [] := ho
  refine ⟨hd0, ho0, ?_⟩
  intro d hmem
  simp only [PointsModel.pointsWithDetails, List.mem_map] at hmem
  obtain ⟨point, _, rfl⟩ := hmem
  simp only [PointsModel.withDetails, hd0, ho0]
  cases point.offers <;> simp

theorem findIndex_some {α : Type} (p : α → Bool) :
    ∀ (l : List α) (i : Nat), findIndex p l = some i → ∃ x, l[i]? = some x ∧ p x = true := by
  intro l
  induction l with
  | nil => intro i h; simp [findIndex] at h
  | cons y ys ih =>
    intro i h
    by_cases hy : p y = true
    · simp [findIndex, hy] at h
      subst h
      exact ⟨y, by simp, hy⟩
    · simp only [findIndex, hy, Bool.false_eq_true, if_false, Option.map_eq_some'] at h
      obtain ⟨j, hj, rfl⟩ := h
      obtain ⟨x, hx, hpx⟩ := ih j hj
      exact ⟨x, by simpa using hx, hpx⟩

theorem map_replace_at {α β : Type} (f : α → β) (y : α) :
    ∀ (l : List α) (i : Nat) (x : α), l[i]? = some x → f x = f y →
      (slice l 0 i ++ y :: sliceFrom l (i + 1)).map f = l.map f := by
  intro l
  induction l with
  | nil => intro i x h; simp at h
  | cons a as ih =>
    intro i x h hf
    cases i with
    | zero =>
      simp at h
      subst h
      simp [slice, sliceFrom, hf]
    | succ j =>
      have hj : as[j]? = some x := by simpa using h
      have := ih j x hj hf
      simp [slice, sliceFrom] at this ⊢
      exact this

theorem remove_at_append {β : Type} (a rest : List β) (i : Nat) (hi : i < a.length) :
    slice (a ++ rest) 0 i ++ sliceFrom (a ++ rest) (i + 1) =
      (slice a 0 i ++ sliceFrom a (i + 1)) ++ rest := by
  simp only [slice, sliceFrom, List.drop_zero]
  rw [List.take_append_of_le_length (Nat.le_of_lt hi),
    List.drop_append_of_le_length (Nat.succ_le_of_lt hi), List.append_assoc]

theorem applyMutation_ids (m : Mutation) (s : PointsModel) (rest : List String)
    (h : (s.points.map fun p => p.id) =
      (s.storedPointsWithDetails.map fun d => d.id) ++ rest) :
    ((s.applyMutation m).model.points.map fun p => p.id) =
      ((s.applyMutation m).model.storedPointsWithDetails.map fun d => d.id) ++ rest := by
  cases m with
  | addPoint t u =>
    simp [PointsModel.applyMutation, PointsModel.addPoint, PointsModel._notify,
      PointsModel._extractBasePointData, h]
  | updatePoint t u =>
    simp only [PointsModel.applyMutation, PointsModel.updatePoint]
    split
    · exact h
    · rename_i index hfind
      obtain ⟨x, hx, hpx⟩ := findIndex_some _ _ _ hfind
      have hxid : x.id = u.id := by simpa using hpx
      have hlt : index < s.storedPointsWithDetails.length := (List.getElem?_eq_some.mp hx).1
      have hstored := map_replace_at (fun d : PointWithDetails => d.id) u
        s.storedPointsWithDetails index x hx hxid
      have hraw : ∃ pt, s.points[index]? = some pt ∧ pt.id = u.id := by
        have h1 : (s.points.map fun p => p.id)[index]? = some x.id := by
          rw [h, List.getElem?_append_left (by simpa using hlt)]
          simp [hx]
        simp only [List.getElem?_map, Option.map_eq_some'] at h1
        obtain ⟨pt, hpt, hid⟩ := h1
        exact ⟨pt, hpt, hid.trans hxid⟩
      obtain ⟨pt, hpt, hptid⟩ := hraw
      have hpoints := map_replace_at (fun p : Point => p.id)
        (PointsModel._extractBasePointData u) s.points index pt hpt
        (by simpa [PointsModel._extractBasePointData] using hptid)
      simp only [PointsModel._notify]
      rw [hpoints, hstored]
      exact h
  | deletePoint t u =>
    simp only [PointsModel.applyMutation, PointsModel.deletePoint]
    split
    · exact h
    · rename_i index hfind
      obtain ⟨x, hx, _⟩ := findIndex_some _ _ _ hfind
      have hlt : index < (s.storedPointsWithDetails.map fun d => d.id).length := by
        simpa using (List.getElem?_eq_some.mp hx).1
      have hrem := remove_at_append (s.storedPointsWithDetails.map fun d => d.id) rest
        index hlt
      rw [← h] at hrem
      simp only [PointsModel._notify]
      simpa [slice, sliceFrom] using hrem

theorem runMutations_ids (ms : List Mutation) :
    ∀ (s : PointsModel) (rest : List String),
      (s.points.map fun p => p.id) = (s.storedPointsWithDetails.map fun d => d.id) ++ rest →
      ((PointsModel.runMutations ms s).points.map fun p => p.id) =
        ((PointsModel.runMutations ms s).storedPointsWithDetails.map fun d => d.id) ++ rest := by
  induction ms with
  | nil => intro s rest h; exact h
  | cons m ms ih =>
    intro s rest h
    exact ih _ rest (applyMutation_ids m s rest h)

theorem init_stored (newDate : String → JSDate) (outcome : ApiOutcome) (s : PointsModel) :
    (s.init newDate outcome).model.storedPointsWithDetails = s.storedPointsWithDetails := by
  cases outcome with
  | rejected e => rfl
  | notArray => rfl
  | array items =>
    simp only [PointsModel.init]
    split <;> rfl

theorem index_addresses_same_id (s : PointsModel) (rest : List String)
    (h : (s.points.map fun p => p.id) =
      (s.storedPointsWithDetails.map fun d => d.id) ++ rest)
    (k : Nat) (d : PointWithDetails) (hd : s.storedPointsWithDetails[k]? = some d) :
    ∃ pt, s.points[k]? = some pt ∧ pt.id = d.id := by
  have hlt : k < s.storedPointsWithDetails.length := (List.getElem?_eq_some.mp hd).1
  have h1 : (s.points.map fun p => p.id)[k]? = some d.id := by
    rw [h, List.getElem?_append_left (by simpa using hlt)]
    simp [hd]
  simp only [List.getElem?_map, Option.map_eq_some'] at h1
  exact h1

/-- C16: after the constructor, one `init` and any sequence of `addPoint`,
`updatePoint` and `deletePoint` calls (failed ones included) the ids of the
internally kept detailed list are the leading ids of the raw point list,
position by position; without the `init` the two id sequences are equal; and
an index that `findIndex` returns for an id on the detailed list addresses a
raw point with that id. -/
theorem stored_ids_lead_raw_ids (newDate : String → JSDate) (outcome : ApiOutcome)
    (ms : List Mutation) :
    (∃ rest,
      ((PointsModel.runMutations ms
        (PointsModel.init newDate outcome PointsModel.new).model).points.map fun p => p.id) =
      ((PointsModel.runMutations ms
        (PointsModel.init newDate outcome PointsModel.new).model).storedPointsWithDetails.map
          fun d => d.id) ++ rest) ∧
    (∀ (k : Nat) (d : PointWithDetails),
      (PointsModel.runMutations ms
        (PointsModel.init newDate outcome PointsModel.new).model).storedPointsWithDetails[k]? =
          some d →
      ∃ pt, (PointsModel.runMutations ms
        (PointsModel.init newDate outcome PointsModel.new).model).points[k]? = some pt ∧
        pt.id = d.id) ∧
    ((PointsModel.runMutations ms PointsModel.new).storedPointsWithDetails.map fun d => d.id) =
      ((PointsModel.runMutations ms PointsModel.new).points.map fun p => p.id) ∧
    (∀ (update : PointWithDetails) (index : Nat),
      findIndex (fun point => decide (point.id = update.id))
        (PointsModel.runMutations ms
          (PointsModel.init newDate outcome PointsModel.new).model).storedPointsWithDetails =
        some index →
      ∃ pt, (PointsModel.runMutations ms
        (PointsModel.init newDate outcome PointsModel.new).model).points[index]? = some pt ∧
        pt.id = update.id) := by
  have hstart : ((PointsModel.init newDate outcome PointsModel.new).model.points.map
      fun p => p.id) =
      ((PointsModel.init newDate outcome PointsModel.new).model.storedPointsWithDetails.map
        fun d => d.id) ++
      ((PointsModel.init newDate outcome PointsModel.new).model.points.map fun p => p.id) := by
    rw [init_stored]
    rfl
  have hinv := runMutations_ids ms _ _ hstart
  have hnew := runMutations_ids ms PointsModel.new [] rfl
  refine ⟨⟨_, hinv⟩, ?_, ?_, ?_⟩
  · intro k d hd
    exact index_addresses_same_id _ _ hinv k d hd
  · simpa using hnew.symm
  · intro update index hfind
    obtain ⟨x, hx, hpx⟩ := findIndex_some _ _ _ hfind
    obtain ⟨pt, hpt, hid⟩ := index_addresses_same_id _ _ hinv index x hx
    exact ⟨pt, hpt, hid.trans (by simpa using hpx)⟩

/-! ## Writing a projected point back -/

/-- C18, as stated, fails: for a stored point whose destination is `null` and
whose offers are the empty list, the round trip returns destination and offers
unchanged although no loaded destination has the point's destination as id. -/
theorem round_trip_of_null_destination :
    pointWithoutDestination.destination ≠ some "" ∧
    (PointsModel._extractBasePointData
      (catalogStore.withDetails pointWithoutDestination)).destination =
      pointWithoutDestination.destination ∧
    (PointsModel._extractBasePointData
      (catalogStore.withDetails pointWithoutDestination)).offers =
      pointWithoutDestination.offers ∧
    ∀ dest ∈ catalogStore.destinations, some dest.id ≠ pointWithoutDestination.destination := by
  decide

/-- C18, amended: for a raw point `p` whose destination id is not the empty
string and for all destination and offer states, `_extractBasePointData` of
the projection of `p` has `destination = p.destination` when a loaded
destination has that id and `null` otherwise, and `offers` equal to the ids of
the type catalog that occur in `p.offers`, in catalog order (the empty list
when `p.offers` is not an array); if the round trip returns destination and
offers unchanged, then the destination is `null` or resolves, and `p.offers`
is a sublist of the ids of the type catalog. -/
theorem extract_of_projection (self : PointsModel) (p : Point)
    (hne : p.destination ≠ some "") :
    ((∃ dest ∈ self.destinations, some dest.id = p.destination) →
      (PointsModel._extractBasePointData (self.withDetails p)).destination = p.destination) ∧
    ((∀ dest ∈ self.destinations, some dest.id ≠ p.destination) →
      (PointsModel._extractBasePointData (self.withDetails p)).destination = none) ∧
    (∀ ids, p.offers = some ids →
      (PointsModel._extractBasePointData (self.withDetails p)).offers =
        some (((self.withDetails p).typeOffers.map fun offer => offer.id).filter
          fun id => decide (id ∈ ids))) ∧
    (p.offers = none →
      (PointsModel._extractBasePointData (self.withDetails p)).offers = some []) ∧
    ((PointsModel._extractBasePointData (self.withDetails p)).destination = p.destination →
      (PointsModel._extractBasePointData (self.withDetails p)).offers = p.offers →
      (p.destination = none ∨ ∃ dest ∈ self.destinations, some dest.id = p.destination) ∧
      ∃ ids, p.offers = some ids ∧
        ids.Sublist ((self.withDetails p).typeOffers.map fun offer => offer.id)) := by
  have hdest : ∀ found,
      self.destinations.find? (fun dest => decide (some dest.id = p.destination)) = some found →
      (PointsModel._extractBasePointData (self.withDetails p)).destination = p.destination := by
    intro found hfind
    have hmatch : some found.id = p.destination := by simpa using List.find?_some hfind
    have hnonempty : found.id ≠ "" := by
      intro hempty
      exact hne (by rw [← hmatch, hempty])
    simp [PointsModel._extractBasePointData, PointsModel.withDetails, hfind, truthy,
      hnonempty, hmatch]
  have hnone : self.destinations.find? (fun dest => decide (some dest.id = p.destination)) =
      none → (PointsModel._extractBasePointData (self.withDetails p)).destination = none := by
    intro hfind
    simp [PointsModel._extractBasePointData, PointsModel.withDetails, hfind]
  have hoffers : ∀ ids, p.offers = some ids →
      (PointsModel._extractBasePointData (self.withDetails p)).offers =
        some (((self.withDetails p).typeOffers.map fun offer => offer.id).filter
          fun id => decide (id ∈ ids)) := by
    intro ids hids
    simp [PointsModel._extractBasePointData, PointsModel.withDetails, hids, List.filter_map,
      Function.comp_def]
  refine ⟨?_, ?_, hoffers, ?_, ?_⟩
  · rintro ⟨dest, hmem, hid⟩
    cases hfind : self.destinations.find?
        (fun dest => decide (some dest.id = p.destination)) with
    | none =>
      have := List.find?_eq_none.mp hfind dest hmem
      simp [hid] at this
    | some found => exact hdest found hfind
  · intro hall
    exact hnone (find?_absent _ _ (fun e he => by simp [hall e he]))
  · intro hnot
    simp [PointsModel._extractBasePointData, PointsModel.withDetails, hnot]
  · intro hd ho
    refine ⟨?_, ?_⟩
    · cases hfind : self.destinations.find?
          (fun dest => decide (some dest.id = p.destination)) with
      | none =>
        rw [hnone hfind] at hd
        exact Or.inl hd.symm
      | some found =>
        exact Or.inr
          ⟨found, List.mem_of_find?_eq_some hfind, by simpa using List.find?_some hfind⟩
    · cases hids : p.offers with
      | none =>
        rw [hids] at ho
        simp [PointsModel._extractBasePointData, PointsModel.withDetails, hids] at ho
      | some ids =>
        refine ⟨ids, rfl, ?_⟩
        have h1 := hoffers ids hids
        rw [ho, hids] at h1
        have h2 : ids = ((self.withDetails p).typeOffers.map fun offer => offer.id).filter
            fun id => decide (id ∈ ids) := by simpa using h1
        have hsub := List.filter_sublist (p := fun id => decide (id ∈ ids))
          ((self.withDetails p).typeOffers.map fun offer => offer.id)
        rw [← h2] at hsub
        exact hsub

/-- C18, amended, at a concrete state: the point with destination `d1` and
offers `[a, c]` against the catalog `[a, b, c]` comes back with both
unchanged. -/
theorem extract_of_projection_example :
    pointAC.destination = some "d1" ∧ pointAC.offers = some ["a", "c"] ∧
    (PointsModel._extractBasePointData (catalogStore.withDetails pointAC)).destination =
      some "d1" ∧
    (PointsModel._extractBasePointData (catalogStore.withDetails pointAC)).offers =
      some ["a", "c"] := by
  obtain ⟨hres, _, hoffers, _, _⟩ := extract_of_projection catalogStore pointAC (by decide)
  refine ⟨rfl, rfl, hres ⟨destinationD1, by decide, rfl⟩, ?_⟩
  rw [hoffers ["a", "c"] rfl]
  decide

/-! ## Cancelling an edit -/

theorem init_fields (q0 : TripPointPresenter) (p : PointWithDetails) :
    (q0.init p).point = some p ∧
    (q0.init p).pointComponent = some { point := p, offers := p.offers } ∧
    (q0.init p).editorComponent =
      some (EventEditorView.create p p.destination p.offers true) ∧
    (q0.init p).dataChanges = q0.dataChanges := by
  unfold TripPointPresenter.init
  simp only
  split
  · exact ⟨rfl, rfl, rfl, rfl⟩
  · split <;> split <;> exact ⟨rfl, rfl, rfl, rfl⟩

theorem mem_addEventListener (b : Board) (i : Nat) :
    i ∈ (b.addEventListener i).keydownListeners := by
  unfold Board.addEventListener
  split
  · assumption
  · simp

theorem onEditButtonClick_self (b : Board) (i : Nat) (q : TripPointPresenter)
    (hb : b.AllInitialised) (hq : b.presenters[i]? = some q) :
    ∃ b1, b.onEditButtonClick i = .ok b1 ∧
      b1.presenters[i]? = some { q.replace .editor .point with mode := .EDITING } ∧
      i ∈ b1.keydownListeners := by
  obtain ⟨ps, ls⟩ := b
  have hi : i < ps.length := (List.getElem?_eq_some.mp hq).1
  have hinit : q.initialised = true := hb _ (List.getElem?_mem hq)
  have hview : q.pointComponent ≠ none := by
    intro hnone
    simp [TripPointPresenter.initialised, hnone] at hinit
  have h0 : Board.onPresenter i (fun p =>
      if p.pointComponent = none then .error "no read view" else .ok p) ⟨ps, ls⟩ =
      .ok ⟨ps.set i q, ls⟩ :=
    onPresenter_ok ⟨ps, ls⟩ i _ _ _ hq (by simp [hview])
  have hb0 : Board.AllInitialised ⟨ps.set i q, ls⟩ := allInitialised_set ⟨ps, ls⟩ i _ hb hinit
  have h1 : Board.onPresenter i (fun p => .ok (p.replace .editor .point)) ⟨ps.set i q, ls⟩ =
      .ok ⟨(ps.set i q).set i (q.replace .editor .point), ls⟩ :=
    onPresenter_ok ⟨ps.set i q, ls⟩ i _ _ _ (List.getElem?_set_self hi) rfl
  have hb1 : Board.AllInitialised ⟨(ps.set i q).set i (q.replace .editor .point), ls⟩ :=
    allInitialised_set ⟨ps.set i q, ls⟩ i _ hb0 (initialised_replace _ .editor .point hinit)
  obtain ⟨b2, h2, hlen2, _, _, hi2, _⟩ :=
    resetOthers_spec i (List.range ps.length)
      ⟨(ps.set i q).set i (q.replace .editor .point), ls⟩
      hb1 (fun j hj => by simpa using List.mem_range.mp hj)
  have hlen2b : b2.presenters.length = ps.length := by simpa using hlen2
  have hp2 : b2.presenters[i]? = some (q.replace .editor .point) := by
    rw [hi2]
    exact List.getElem?_set_self (by simpa using hi)
  have h3 : Board.onPresenter i (fun p => .ok { p with mode := .EDITING }) b2 =
      .ok ⟨b2.presenters.set i { q.replace .editor .point with mode := .EDITING },
        b2.keydownListeners⟩ :=
    onPresenter_ok b2 i _ _ _ hp2 rfl
  refine ⟨Board.addEventListener i
      ⟨b2.presenters.set i { q.replace .editor .point with mode := .EDITING },
        b2.keydownListeners⟩, ?_, ?_, mem_addEventListener _ i⟩
  · simp only [Board.onEditButtonClick, Board.replacePointToEditor, Board.handleModeChange,
      bind, Except.bind, h0, h1, List.length_set, h2, h3, pure, Except.pure]
  · rw [addEventListener_presenters]
    exact List.getElem?_set_self (by rw [hlen2b]; exact hi)

theorem typeDrafts_spec (i : Nat) (drafts : List PointWithDetails) :
    ∀ (b : Board) (q : TripPointPresenter) (e : EventEditorView),
      b.presenters[i]? = some q → q.editorComponent = some e →
      ∃ b1 e1, b.typeDrafts i drafts = .ok b1 ∧
        b1.presenters[i]? = some { q with editorComponent := some e1 } ∧
        b1.keydownListeners = b.keydownListeners := by
  induction drafts with
  | nil =>
    intro b q e hq he
    refine ⟨b, e, rfl, ?_, rfl⟩
    rw [hq, ← he]
  | cons draft drafts ih =>
    intro b q e hq he
    have hlt : i < b.presenters.length := (List.getElem?_eq_some.mp hq).1
    have hstep : b.typeDraft i draft =
        .ok { b with presenters :=
          b.presenters.set i { q with editorComponent := some (e.edit draft) } } :=
      onPresenter_ok b i _ _ _ hq (by simp [he])
    obtain ⟨b1, e1, hrun, hp1, hl1⟩ := ih
      { b with presenters :=
        b.presenters.set i { q with editorComponent := some (e.edit draft) } }
      { q with editorComponent := some (e.edit draft) } (e.edit draft)
      (List.getElem?_set_self hlt) rfl
    exact ⟨b1, e1, by simp [Board.typeDrafts, hstep, hrun], hp1, hl1⟩

theorem cancel_step (b : Board) (i : Nat) (q : TripPointPresenter) (p : PointWithDetails)
    (e : EventEditorView) (cancel : PresenterEvent)
    (hq : b.presenters[i]? = some q) (hmode : q.mode = .EDITING) (hp : q.point = some p)
    (he : q.editorComponent = some e) (hl : i ∈ b.keydownListeners)
    (hcancel : cancel = .closeClick ∨ cancel = .keydown "Escape" ∨ cancel = .resetView) :
    ∃ b1 q1, b.step i cancel = .ok b1 ∧ b1.presenters[i]? = some q1 ∧
      q1.mode = .DEFAULT ∧ q1.point = some p ∧
      q1.editorComponent = some (e.reset p p.destination p.offers true) ∧
      q1.pointComponent = q.pointComponent ∧ q1.dataChanges = q.dataChanges := by
  have hlt : i < b.presenters.length := (List.getElem?_eq_some.mp hq).1
  obtain ⟨r, hr⟩ : ∃ r : TripPointPresenter, r = { q with
      editorComponent := some (e.reset p p.destination p.offers true) } := ⟨_, rfl⟩
  have hreset : q.resetEditor = .ok r := by
    simp [TripPointPresenter.resetEditor, he, hp, hr]
  have hfields : r.replaceEditorToPoint.mode = .DEFAULT ∧
      r.replaceEditorToPoint.point = some p ∧
      r.replaceEditorToPoint.editorComponent =
        some (e.reset p p.destination p.offers true) ∧
      r.replaceEditorToPoint.pointComponent = q.pointComponent ∧
      r.replaceEditorToPoint.dataChanges = q.dataChanges := by
    subst hr
    unfold TripPointPresenter.replaceEditorToPoint TripPointPresenter.replace
    split <;> exact ⟨rfl, hp, rfl, rfl, rfl⟩
  obtain ⟨f1, f2, f3, f4, f5⟩ := hfields
  have hclose : b.handlerCloseButtonClick i =
      .ok (Board.removeEventListener i
        ⟨(b.presenters.set i r).set i r.replaceEditorToPoint, b.keydownListeners⟩) := by
    have h1 : b.onPresenter i TripPointPresenter.resetEditor =
        .ok ⟨b.presenters.set i r, b.keydownListeners⟩ :=
      onPresenter_ok b i _ _ _ hq hreset
    have h2 : Board.onPresenter i (fun p => .ok p.replaceEditorToPoint)
        ⟨b.presenters.set i r, b.keydownListeners⟩ =
        .ok ⟨(b.presenters.set i r).set i r.replaceEditorToPoint, b.keydownListeners⟩ :=
      onPresenter_ok ⟨b.presenters.set i r, b.keydownListeners⟩ i _ _ _
        (List.getElem?_set_self hlt) rfl
    simp only [Board.handlerCloseButtonClick, bind, Except.bind, h1, h2, pure, Except.pure]
  have hat : (Board.removeEventListener i
      ⟨(b.presenters.set i r).set i r.replaceEditorToPoint, b.keydownListeners⟩).presenters[i]? =
      some r.replaceEditorToPoint := by
    simp only [Board.removeEventListener]
    exact List.getElem?_set_self (by simpa using hlt)
  rcases hcancel with rfl | rfl | rfl
  · exact ⟨_, _, hclose, hat, f1, f2, f3, f4, f5⟩
  · refine ⟨_, _, ?_, hat, f1, f2, f3, f4, f5⟩
    have hesc : b.escKeyDownHandler i "Escape" = b.handlerCloseButtonClick i := by
      simp [Board.escKeyDownHandler, Board.handlerCloseButtonClick]
    simp only [Board.step, hl, if_true, hesc]
    exact hclose
  · have hrv : q.resetView = .ok r.replaceEditorToPoint := by
      simp [TripPointPresenter.resetView, hmode, hreset, Except.map]
    exact ⟨_, _, onPresenter_ok b i _ _ _ hq hrv, List.getElem?_set_self hlt,
      f1, f2, f3, f4, f5⟩

theorem replace_fields (q : TripPointPresenter) (a c : ViewKind) :
    (q.replace a c).point = q.point ∧ (q.replace a c).pointComponent = q.pointComponent ∧
    (q.replace a c).editorComponent = q.editorComponent ∧
    (q.replace a c).dataChanges = q.dataChanges := by
  unfold TripPointPresenter.replace
  split <;> exact ⟨rfl, rfl, rfl, rfl⟩

/-- C11: a presenter initialised with point `p` is brought to `EDITING` by an
edit click; after any unsaved edits in the form, a cancel by the close button,
by the Escape key or by `resetView()` returns normally and leaves the
presenter in mode `DEFAULT`, still holding `p`, with its read view showing `p`
and its editor reset to `p`, and with no further call of `onDataChange`. -/
theorem cancel_restores_point (b : Board) (i : Nat) (q0 : TripPointPresenter)
    (p : PointWithDetails) (drafts : List PointWithDetails) (cancel : PresenterEvent)
    (hb : b.AllInitialised) (hq : b.presenters[i]? = some (q0.init p))
    (hcancel : cancel = .closeClick ∨ cancel = .keydown "Escape" ∨ cancel = .resetView) :
    ∃ b1 b2 b3 q1 q, b.onEditButtonClick i = .ok b1 ∧
      b1.presenters[i]? = some q1 ∧ q1.mode = .EDITING ∧
      b1.typeDrafts i drafts = .ok b2 ∧
      b2.step i cancel = .ok b3 ∧
      b3.presenters[i]? = some q ∧
      q.mode = .DEFAULT ∧ q.point = some p ∧
      q.pointComponent = some { point := p, offers := p.offers } ∧
      (∃ e, q.editorComponent = some e ∧ e.point = p ∧ e.state = p) ∧
      q.dataChanges = q0.dataChanges := by
  obtain ⟨hpt, hpc, hed, hdc⟩ := init_fields q0 p
  obtain ⟨b1, hclick, hq1, hl1⟩ := onEditButtonClick_self b i _ hb hq
  obtain ⟨r1, r2, r3, r4⟩ := replace_fields (q0.init p) .editor .point
  obtain ⟨b2, e1, hdrafts, hq2, hl2⟩ := typeDrafts_spec i drafts b1
    { (q0.init p).replace .editor .point with mode := .EDITING }
    (EventEditorView.create p p.destination p.offers true) hq1 (r3.trans hed)
  obtain ⟨b3, q, hstep, hq3, hmode, hpoint, heditor, hview, hlog⟩ :=
    cancel_step b2 i _ p e1 cancel hq2 rfl (r1.trans hpt) rfl (hl2 ▸ hl1) hcancel
  exact ⟨b1, b2, b3, _, q, hclick, hq1, rfl, hdrafts, hstep, hq3, hmode, hpoint,
    hview.trans (r2.trans hpc), ⟨_, heditor, rfl, rfl⟩, hlog.trans (r4.trans hdc)⟩

/-- C11 at a concrete page: the presenter holding `detailedA` is edited, the
form is changed to `detailedB`, and the Escape key brings `detailedA` back
without a call of `onDataChange`. -/
theorem cancel_restores_point_example :
    boardOfOne.presenters[0]? = some (TripPointPresenter.new.init detailedA) ∧
    ∃ b1 b2 b3 q, boardOfOne.onEditButtonClick 0 = .ok b1 ∧
      b1.typeDrafts 0 [detailedB] = .ok b2 ∧
      b2.step 0 (.keydown "Escape") = .ok b3 ∧
      b3.presenters[0]? = some q ∧
      q.mode = .DEFAULT ∧ q.point = some detailedA ∧
      (∃ e, q.editorComponent = some e ∧ e.state = detailedA) ∧
      q.dataChanges = [] := by
  obtain ⟨b1, b2, b3, _, q, h1, _, _, h2, h3, h4, h5, h6, _, ⟨e, he, _, hstate⟩, h7⟩ :=
    cancel_restores_point boardOfOne 0 TripPointPresenter.new detailedA [detailedB]
      (.keydown "Escape") (by unfold Board.AllInitialised; decide) rfl (Or.inr (Or.inl rfl))
  exact ⟨rfl, b1, b2, b3, q, h1, h2, h3, h4, h5, h6, ⟨e, he, hstate⟩, h7⟩

end BigTrip
